import Mathlib

/-!
# Repository size accounting (`fileserver/size_sched.go`)

A shallow embedding of the size scheduler of the file server: the job queue and
its worker loop, `computeRepoSize`, and `setRepoSizeAndFileCount`.

Conventions of the embedding.

* Go `int64` values are integers; every `int64` addition and subtraction of the
  source is followed by `wrap64`, the two's-complement reduction.
* A Go `error` is an `Option String`: `none` is `nil`.
* The database behind `seafileDB` is an explicit value of type `DB`; a
  transaction is a pending copy of it.  Storage failures are chosen by a
  `Faults` record, one flag per statement of the source.
* The collaborators of `computeRepoSize` that live in other packages
  (`repomgr`, `commitmgr`, `fsmgr`, the diff) are fields of a `World`.
* Functions return, next to their result, the list of calls they made, so that
  "is never called" and "is called with these values" are statements about
  that list.
-/

namespace SizeSched

/-! ## Machine integers -/

/-- Two's-complement reduction of an integer to the range of `int64`. -/
def wrap64 (x : Int) : Int :=
  (x + 9223372036854775808) % 18446744073709551616 - 9223372036854775808

/-- The integer is representable as an `int64`. -/
def inInt64 (x : Int) : Prop :=
  -9223372036854775808 ≤ x ∧ x < 9223372036854775808

instance (x : Int) : Decidable (inInt64 x) := by
  unfold inInt64; infer_instance

deriving instance DecidableEq for Except

/-! ## The persisted tables -/

/-- A row of table `RepoSize`, without its key `repo_id`. -/
structure RepoSizeRow where
  size : Int
  head_id : String
  deriving DecidableEq, Repr

/-- Modelled from the spec: the relational schema is declared outside `src/`.
Two tables keyed by repository identifier, the identifier unique in each:
`RepoSize (repo_id, size, head_id)` and `RepoFileCount (repo_id, file_count)`. -/
structure DB where
  RepoSize : String → Option RepoSizeRow
  RepoFileCount : String → Option Int

/-- The database with no row in either table. -/
def DB.empty : DB := ⟨fun _ => none, fun _ => none⟩

/-- Which statements of one `setRepoSizeAndFileCount` call hit a storage
failure.  `selectHeadFails` and `selectCountFails` stand for a query error
other than `sql.ErrNoRows`. -/
structure Faults where
  beginFails : Bool
  selectHeadFails : Bool
  writeSizeFails : Bool
  selectCountFails : Bool
  writeCountFails : Bool
  commitFails : Bool
  deriving DecidableEq, Repr

/-- Storage on which no statement fails of its own. -/
def Faults.reliable : Faults := ⟨false, false, false, false, false, false⟩

/-- The statements `setRepoSizeAndFileCount` sends to the database, in the
order sent. -/
inductive Stmt where
  | begin
  | selectHeadID (repoID : String)
  | insertRepoSize (repoID : String) (size : Int) (headID : String)
  | updateRepoSize (size : Int) (headID : String) (repoID : String)
  | selectFileCount (repoID : String)
  | updateRepoFileCount (fileCount : Int) (repoID : String)
  | insertRepoFileCount (repoID : String) (fileCount : Int)
  | rollback
  | commit
  deriving DecidableEq, Repr

/-- The statement `INSERT INTO RepoSize (repo_id, size, head_id) VALUES (?, ?, ?)` on the
pending tables: refused when the key is already present (unique key). -/
def execInsertRepoSize (fails : Bool) (tx : DB) (repoID : String) (size : Int)
    (headID : String) : Option DB :=
  if fails then Option.none
  else match tx.RepoSize repoID with
    | some _ => Option.none
    | Option.none =>
      some ⟨fun k => if k = repoID then some ⟨size, headID⟩ else tx.RepoSize k, tx.RepoFileCount⟩

/-- The statement `UPDATE RepoSize SET size = ?, head_id = ? WHERE repo_id = ?` on the
pending tables: rewrites the row of that key if there is one. -/
def execUpdateRepoSize (fails : Bool) (tx : DB) (size : Int) (headID : String)
    (repoID : String) : Option DB :=
  if fails then Option.none
  else
    some ⟨fun k => if k = repoID then (tx.RepoSize k).map (fun _ => ⟨size, headID⟩)
                   else tx.RepoSize k, tx.RepoFileCount⟩

/-- The statement `INSERT INTO RepoFileCount (repo_id,file_count) VALUES (?,?)` on the
pending tables: refused when the key is already present (unique key). -/
def execInsertRepoFileCount (fails : Bool) (tx : DB) (repoID : String)
    (fileCount : Int) : Option DB :=
  if fails then Option.none
  else match tx.RepoFileCount repoID with
    | some _ => Option.none
    | Option.none =>
      some ⟨tx.RepoSize, fun k => if k = repoID then some fileCount else tx.RepoFileCount k⟩

/-- The statement `UPDATE RepoFileCount SET file_count=? WHERE repo_id=?` on the pending
tables: rewrites the row of that key if there is one. -/
def execUpdateRepoFileCount (fails : Bool) (tx : DB) (fileCount : Int)
    (repoID : String) : Option DB :=
  if fails then Option.none
  else
    some ⟨tx.RepoSize, fun k => if k = repoID then (tx.RepoFileCount k).map (fun _ => fileCount)
                                else tx.RepoFileCount k⟩

/-- The query `SELECT head_id FROM RepoSize WHERE repo_id=?` followed by
`row.Scan(&headID)` with the source's handling of the error: `none` is an error
other than `sql.ErrNoRows`; otherwise the value left in `headID`, which stays
the empty string when there is no row. -/
def scanHeadID (fails : Bool) (tx : DB) (repoID : String) : Option String :=
  if fails then Option.none
  else match tx.RepoSize repoID with
    | some row => some row.head_id
    | Option.none => some ""

/-- The query `SELECT 1 FROM RepoFileCount WHERE repo_id=?` followed by
`row.Scan(&exist)`: `none` is an error other than `sql.ErrNoRows`; otherwise
the value left in `exist`, which stays `0` when there is no row. -/
def scanExist (fails : Bool) (tx : DB) (repoID : String) : Option Int :=
  if fails then Option.none
  else match tx.RepoFileCount repoID with
    | some _ => some 1
    | Option.none => some 0

/-- What a call of `setRepoSizeAndFileCount` leaves behind: the returned
error, the durable tables, and the statements sent. -/
structure SetResult where
  err : Option String
  db : DB
  stmts : List Stmt

/-- The second half of `setRepoSizeAndFileCount` (source lines 163-191): the
`RepoFileCount` query, its insert or update, and the commit.  `db` is the
durable state, `tx` the pending one, `log` the statements sent so far. -/
def setFileCountAndCommit (f : Faults) (db tx : DB) (log : List Stmt) (repoID : String)
    (fileCount : Int) : SetResult :=
  match scanExist f.selectCountFails tx repoID with
  | Option.none => ⟨some "query RepoFileCount", db, log ++ [.selectFileCount repoID, .rollback]⟩
  | some exist =>
    let log := log ++ [.selectFileCount repoID]
    if exist ≠ 0 then
      match execUpdateRepoFileCount f.writeCountFails tx fileCount repoID with
      | Option.none =>
        ⟨some "update RepoFileCount", db, log ++ [.updateRepoFileCount fileCount repoID, .rollback]⟩
      | some tx2 =>
        -- trans.Commit(): its error is dropped, nil is returned
        ⟨Option.none, if f.commitFails then db else tx2,
          log ++ [.updateRepoFileCount fileCount repoID, .commit]⟩
    else
      match execInsertRepoFileCount f.writeCountFails tx repoID fileCount with
      | Option.none =>
        ⟨some "insert RepoFileCount", db, log ++ [.insertRepoFileCount repoID fileCount, .rollback]⟩
      | some tx2 =>
        ⟨Option.none, if f.commitFails then db else tx2,
          log ++ [.insertRepoFileCount repoID fileCount, .commit]⟩

/-- The function `setRepoSizeAndFileCount` of the source (lines 129-192). -/
def setRepoSizeAndFileCount (f : Faults) (db : DB) (repoID newHeadID : String)
    (size fileCount : Int) : SetResult :=
  if f.beginFails then ⟨some "failed to start transaction.\n", db, [.begin]⟩
  else
    let tx := db
    match scanHeadID f.selectHeadFails tx repoID with
    | Option.none => ⟨some "query RepoSize", db, [.begin, .selectHeadID repoID, .rollback]⟩
    | some headID =>
      if headID = "" then
        match execInsertRepoSize f.writeSizeFails tx repoID size newHeadID with
        | Option.none =>
          ⟨some "insert RepoSize", db,
            [.begin, .selectHeadID repoID, .insertRepoSize repoID size newHeadID, .rollback]⟩
        | some tx1 =>
          setFileCountAndCommit f db tx1
            [.begin, .selectHeadID repoID, .insertRepoSize repoID size newHeadID] repoID fileCount
      else
        match execUpdateRepoSize f.writeSizeFails tx size newHeadID repoID with
        | Option.none =>
          ⟨some "update RepoSize", db,
            [.begin, .selectHeadID repoID, .updateRepoSize size newHeadID repoID, .rollback]⟩
        | some tx1 =>
          setFileCountAndCommit f db tx1
            [.begin, .selectHeadID repoID, .updateRepoSize size newHeadID repoID] repoID fileCount

/-! ## The collaborators of `computeRepoSize` -/

/-- Modelled from the spec: `repomgr.Repo` is declared outside `src/`.  The
fields `computeRepoSize` reads: identifier, current head commit identifier,
store identifier, root-tree identifier. -/
structure Repo where
  ID : String
  HeadCommitID : String
  StoreID : String
  RootID : String
  deriving DecidableEq, Repr

/-- Modelled from the spec: `repomgr.RepoInfo` is declared outside `src/`.  The
previously persisted record: head marker, size, file count. -/
structure RepoInfo where
  HeadID : String
  Size : Int
  FileCount : Int
  deriving DecidableEq, Repr

/-- Modelled from the spec: `commitmgr.Commit` is declared outside `src/`.  A
commit: its identifier and the identifier of its root tree. -/
structure Commit where
  CommitID : String
  RootID : String
  deriving DecidableEq, Repr

/-- Modelled from the spec: the status constants are declared outside `src/`.
The three statuses the source tests for, and `other` for every status code the
`if`/`else if` chain of the source lets fall through. -/
inductive DiffStatus where
  | DIFF_STATUS_ADDED
  | DIFF_STATUS_DELETED
  | DIFF_STATUS_MODIFIED
  | other
  deriving DecidableEq, Repr

/-- Modelled from the spec: `diffEntry` is declared outside `src/`.  A change
entry: status, path, new size, prior size. -/
structure diffEntry where
  status : DiffStatus
  name : String
  size : Int
  originSize : Int
  deriving DecidableEq, Repr

/-- Modelled from the spec: the result type of `fsmgr.GetFileCountInfoByPath`
is declared outside `src/`.  Total file count and size under a path. -/
structure FileCountInfo where
  FileCount : Int
  Size : Int
  deriving DecidableEq, Repr

/-- The functions of other packages that `computeRepoSize` calls, and the
storage faults its one call of `setRepoSizeAndFileCount` meets.
`commitmgrLoad` returns a commit exactly when it returns no error;
`repomgrGetOldRepoInfo` reads the database. -/
structure World where
  repomgrGet : String → Option Repo
  repomgrGetOldRepoInfo : DB → String → Except String (Option RepoInfo)
  commitmgrLoad : String → String → Except String Commit
  diffCommits : Commit → Commit → Except String (List diffEntry)
  fsmgrGetFileCountInfoByPath : String → String → String → Except String FileCountInfo
  faults : Faults

/-- The calls `computeRepoSize` makes, each with its arguments and whether
it succeeded.  `loadHead` is the `commitmgr.Load` of line 74, `loadOldHead`
the one of line 82. -/
inductive Call where
  | repomgrGet (repoID : String) (found : Bool)
  | getOldRepoInfo (repoID : String) (ok : Bool)
  | loadHead (repoID commitID : String) (ok : Bool)
  | loadOldHead (repoID commitID : String) (ok : Bool)
  | diffCommits (oldHead head : Commit) (ok : Bool)
  | getFileCountInfoByPath (storeID rootID path : String) (ok : Bool)
  | setRepoSizeAndFileCount (repoID newHeadID : String) (size fileCount : Int) (ok : Bool)
  deriving DecidableEq, Repr

/-- What a call of `computeRepoSize` leaves behind: the returned error, the
durable tables, and the calls made. -/
structure Outcome where
  err : Option String
  db : DB
  calls : List Call

/-! ## `computeRepoSize` -/

/-- The body of the loop over the diff results (source lines 97-105), on the
pair `(changeSize, changeFileCount)`. -/
def accountEntry (acc : Int × Int) (de : diffEntry) : Int × Int :=
  if de.status = .DIFF_STATUS_DELETED then
    (wrap64 (acc.1 - de.size), wrap64 (acc.2 - 1))
  else if de.status = .DIFF_STATUS_ADDED then
    (wrap64 (acc.1 + de.size), wrap64 (acc.2 + 1))
  else if de.status = .DIFF_STATUS_MODIFIED then
    (wrap64 (wrap64 (acc.1 + de.size) + de.originSize), acc.2)
  else acc

/-- The loop of source lines 96-106, from `changeSize = 0` and
`changeFileCount = 0`. -/
def accountDiff (results : List diffEntry) : Int × Int :=
  results.foldl accountEntry (0, 0)

/-- Source lines 120-126: the call of `setRepoSizeAndFileCount` and the
handling of its error.  `calls` are the calls made so far. -/
def persistTotals (w : World) (db : DB) (calls : List Call) (repoID : String) (repo : Repo)
    (size fileCount : Int) : Outcome :=
  let r := setRepoSizeAndFileCount w.faults db repoID repo.HeadCommitID size fileCount
  match r.err with
  | some e =>
    ⟨some ("[scheduler] failed to set repo size and file count " ++ repoID ++ ": " ++ e
      ++ ".\n"), r.db,
      calls ++ [.setRepoSizeAndFileCount repoID repo.HeadCommitID size fileCount false]⟩
  | Option.none =>
    ⟨Option.none, r.db,
      calls ++ [.setRepoSizeAndFileCount repoID repo.HeadCommitID size fileCount true]⟩

/-- Source lines 109-118 and 120-126: the full walk, then persistence. -/
def fullWalk (w : World) (db : DB) (calls : List Call) (repoID : String) (repo : Repo) :
    Outcome :=
  match w.fsmgrGetFileCountInfoByPath repo.StoreID repo.RootID "/" with
  | .error _ =>
    ⟨some "[scheduler] failed to get file count.\n", db,
      calls ++ [.getFileCountInfoByPath repo.StoreID repo.RootID "/" false]⟩
  | .ok info =>
    persistTotals w db (calls ++ [.getFileCountInfoByPath repo.StoreID repo.RootID "/" true])
      repoID repo info.Size info.FileCount

/-- Source lines 86-108 and 120-126: the diff of the old head against the
head, the loop over its entries, then persistence. -/
def incremental (w : World) (db : DB) (calls : List Call) (repoID : String) (repo : Repo)
    (info : RepoInfo) (oldHead head : Commit) : Outcome :=
  match w.diffCommits oldHead head with
  | .error e =>
    ⟨some ("[scheduler] failed to do diff commits: " ++ e ++ ".\n"), db,
      calls ++ [.diffCommits oldHead head false]⟩
  | .ok results =>
    let change := accountDiff results
    persistTotals w db (calls ++ [.diffCommits oldHead head true]) repoID repo
      (wrap64 (info.Size + change.1)) (wrap64 (info.FileCount + change.2))

/-- The function `computeRepoSize` of the source (lines 55-127). -/
def computeRepoSize (w : World) (db : DB) (repoID : String) : Outcome :=
  match w.repomgrGet repoID with
  | Option.none =>
    ⟨some ("[scheduler] failed to get repo " ++ repoID ++ ".\n"), db, [.repomgrGet repoID false]⟩
  | some repo =>
    match w.repomgrGetOldRepoInfo db repoID with
    | .error e =>
      ⟨some ("[scheduler] failed to get old repo info: " ++ e ++ ".\n"), db,
        [.repomgrGet repoID true, .getOldRepoInfo repoID false]⟩
    | .ok info =>
      let calls : List Call := [.repomgrGet repoID true, .getOldRepoInfo repoID true]
      if info.any (fun i => i.HeadID = repo.HeadCommitID) then ⟨Option.none, db, calls⟩
      else
        match w.commitmgrLoad repo.ID repo.HeadCommitID with
        | .error _ =>
          ⟨some ("[scheduler] failed to get head commit " ++ repo.HeadCommitID ++ ".\n"), db,
            calls ++ [.loadHead repo.ID repo.HeadCommitID false]⟩
        | .ok head =>
          let calls := calls ++ [.loadHead repo.ID repo.HeadCommitID true]
          match info with
          | Option.none => fullWalk w db calls repoID repo
          | some i =>
            match w.commitmgrLoad repo.ID i.HeadID with
            | .error _ =>
              fullWalk w db (calls ++ [.loadOldHead repo.ID i.HeadID false]) repoID repo
            | .ok oldHead =>
              incremental w db (calls ++ [.loadOldHead repo.ID i.HeadID true]) repoID repo i
                oldHead head

/-! ## The job queue and its workers -/

/-- The type `Job` of the source.  A callback acts on the state `σ` outside
the queue and returns its error; `none` is the nil callback. -/
structure Job (σ : Type) where
  callback : Option (String → σ → Option String × σ)
  repoID : String

/-- The capacity of the channel `jobs`. -/
def jobsCapacity : Nat := 10

/-- The channel `jobs` with what the workers act on and what they leave
behind: the state outside the queue, the repository identifiers the callbacks
were invoked with, and the lines logged. -/
structure Sched (σ : Type) where
  jobs : List (Job σ)
  ext : σ
  invoked : List String
  logged : List String

/-- One iteration of the loop of `worker` (source lines 36-45): the `select`
receives the job at the head of the channel if there is one and runs the
`default` branch otherwise. -/
def workerStep {σ : Type} (s : Sched σ) : Sched σ :=
  match s.jobs with
  | [] => s
  | job :: rest =>
    match job.callback with
    | Option.none => ⟨rest, s.ext, s.invoked, s.logged⟩
    | some cb =>
      match cb job.repoID s.ext with
      | (Option.none, ext) => ⟨rest, ext, s.invoked ++ [job.repoID], s.logged⟩
      | (some e, ext) =>
        ⟨rest, ext, s.invoked ++ [job.repoID], s.logged ++ ["failed to call jobs: " ++ e ++ ".\n"]⟩

/-- The send `jobs <- job` on the buffered channel: `none` while the channel
is full (the sender blocks). -/
def send {σ : Type} (s : Sched σ) (job : Job σ) : Option (Sched σ) :=
  if s.jobs.length < jobsCapacity then some ⟨s.jobs ++ [job], s.ext, s.invoked, s.logged⟩
  else Option.none

/-- The function `updateRepoSize` of the source (lines 50-53), the callback
being `computeRepoSize` in world `w`. -/
def updateRepoSize (w : World) (s : Sched DB) (repoID : String) : Option (Sched DB) :=
  send s ⟨some (fun id db => ((computeRepoSize w db id).err, (computeRepoSize w db id).db)), repoID⟩

/-! ## Lookup of the persisted record -/

/-- Modelled from the spec: `repomgr.GetOldRepoInfo` is defined outside `src/`.
`getPreviousSizeInfo(id) -> {headID, size, fileCount} | absent`: absent when
the repository has no `RepoSize` row, the record of the two rows when both
exist, and a storage error when the `RepoFileCount` row of an existing
`RepoSize` row is missing. -/
def getPreviousSizeInfo (db : DB) (repoID : String) : Except String (Option RepoInfo) :=
  match db.RepoSize repoID, db.RepoFileCount repoID with
  | Option.none, _ => .ok Option.none
  | some row, some fileCount => .ok (some ⟨row.head_id, row.size, fileCount⟩)
  | some _, Option.none => .error "no file count"

/-! ## Trees and their diff, as the specification words them -/

/-- A tree as a finite map from file path to size, listed path by path; the
paths of a well-formed tree are distinct. -/
abbrev Tree := List (String × Int)

/-- The paths of the tree are distinct. -/
def Tree.wellFormed (t : Tree) : Prop := (t.map Prod.fst).Nodup

/-- The full walk of a tree: the number of files and the sum of their sizes. -/
def countTree (t : Tree) : FileCountInfo :=
  ⟨t.length, (t.map Prod.snd).sum⟩

/-- One ADDED entry (size = new size) per path only in `new`. -/
def addedEntries (old new : Tree) : List diffEntry :=
  (new.filter (fun e => (old.lookup e.1).isNone)).map
    (fun e => ⟨.DIFF_STATUS_ADDED, e.1, e.2, 0⟩)

/-- One DELETED entry (size = old size) per path only in `old`. -/
def deletedEntries (old new : Tree) : List diffEntry :=
  (old.filter (fun e => (new.lookup e.1).isNone)).map
    (fun e => ⟨.DIFF_STATUS_DELETED, e.1, e.2, 0⟩)

/-- One MODIFIED entry (size = new size, originSize = old size) per path in
both trees whose size changed. -/
def modifiedEntries (old new : Tree) : List diffEntry :=
  new.filterMap (fun e =>
    match old.lookup e.1 with
    | some s => if s ≠ e.2 then some ⟨.DIFF_STATUS_MODIFIED, e.1, e.2, s⟩ else Option.none
    | Option.none => Option.none)

/-- The diff of `old` against `new`: the ADDED, the DELETED and the MODIFIED
entries. -/
def diffTrees (old new : Tree) : List diffEntry :=
  addedEntries old new ++ deletedEntries old new ++ modifiedEntries old new

/-- The sum of `originSize` over the MODIFIED entries: the old sizes of the
files whose size changed. -/
def sumOriginModified (es : List diffEntry) : Int :=
  ((es.filter (fun e => e.status = .DIFF_STATUS_MODIFIED)).map (fun e => e.originSize)).sum

/-- The tables in which the record of `repoID` holds `countTree t` at head
marker `headID`, and no other repository has a record. -/
def recordOf (repoID headID : String) (t : Tree) : DB :=
  ⟨fun k => if k = repoID then some ⟨(countTree t).Size, headID⟩ else Option.none,
   fun k => if k = repoID then some (countTree t).FileCount else Option.none⟩

/-- A world in which every repository exists with head commit `headID`, every
commit loads, the tree of the head commit is `new`, its diff against the old
head is `diffTrees old new`, the lookup reads the tables, and the storage is
reliable. -/
def treeWorld (headID : String) (old new : Tree) : World :=
  ⟨fun id => some ⟨id, headID, id, "root-" ++ headID⟩,
   getPreviousSizeInfo,
   fun _ c => .ok ⟨c, "root-" ++ c⟩,
   fun _ _ => .ok (diffTrees old new),
   fun _ _ _ => .ok (countTree new),
   Faults.reliable⟩

/-- The world `treeWorld headID old new` with a diff that fails. -/
def diffFailsWorld (headID : String) (old new : Tree) : World :=
  ⟨(treeWorld headID old new).repomgrGet,
   getPreviousSizeInfo,
   (treeWorld headID old new).commitmgrLoad,
   fun _ _ => .error "unreadable tree",
   (treeWorld headID old new).fsmgrGetFileCountInfoByPath,
   Faults.reliable⟩

/-- Three files totalling 300 bytes. -/
def tree300 : Tree := [("/a", 100), ("/b", 120), ("/c", 80)]

/-- The tree `tree300` with one more file of 50 bytes. -/
def tree350 : Tree := [("/a", 100), ("/b", 120), ("/c", 80), ("/d", 50)]

/-- A callback that fails on every repository and counts its invocations in
the outside state. -/
def failingCallback : String → Nat → Option String × Nat :=
  fun _ n => (some "boom", n + 1)

/-- A queue of two jobs: one for `r1` whose callback fails, one for `r2` with
the nil callback. -/
def schedTwoJobs : Sched Nat :=
  ⟨[⟨some failingCallback, "r1"⟩, ⟨Option.none, "r2"⟩], 0, [], []⟩

/-- One file of 10 bytes. -/
def treeA10 : Tree := [("/a", 10)]

/-- The same file grown to 20 bytes. -/
def treeA20 : Tree := [("/a", 20)]

/-! ## Test data -/

/-- A database whose only `RepoSize` row, for repository `r`, holds the empty
head marker; `r` has a `RepoFileCount` row too. -/
def dbEmptyHead : DB :=
  ⟨fun k => if k = "r" then some ⟨1, ""⟩ else Option.none,
   fun k => if k = "r" then some 1 else Option.none⟩

/-- A database in which repository `r` was accounted at head `c1`. -/
def dbAtC1 : DB :=
  ⟨fun k => if k = "r" then some ⟨300, "c1"⟩ else Option.none,
   fun k => if k = "r" then some 3 else Option.none⟩

/-- A database in which repository `r` has a `RepoSize` row, at head `c1`, and
no `RepoFileCount` row. -/
def dbSizeOnly : DB :=
  ⟨fun k => if k = "r" then some ⟨300, "c1"⟩ else Option.none, fun _ => Option.none⟩

/-- A database in which repository `r` has a `RepoFileCount` row and no
`RepoSize` row. -/
def dbCountOnly : DB :=
  ⟨fun _ => Option.none, fun k => if k = "r" then some 3 else Option.none⟩

/-- A world without repositories: the repository lookup finds nothing. -/
def emptyWorld : World :=
  ⟨fun _ => Option.none, getPreviousSizeInfo, fun _ c => .ok ⟨c, "root-" ++ c⟩,
   fun _ _ => .ok [], fun _ _ _ => .ok ⟨0, 0⟩, Faults.reliable⟩

/-- Storage on which only the commit fails. -/
def Faults.commitOnly : Faults := ⟨false, false, false, false, false, true⟩

/-- Storage on which only the write to `RepoFileCount` fails. -/
def Faults.countWriteOnly : Faults := ⟨false, false, false, false, true, false⟩

/-! ## The totals of the incremental path, as the specification words them -/

/-- The sum of `size` over the entries of status `st`. -/
def sumSizes (st : DiffStatus) (es : List diffEntry) : Int :=
  ((es.filter (fun e => e.status = st)).map (fun e => e.size)).sum

/-- The number of entries of status `st`. -/
def countEntries (st : DiffStatus) (es : List diffEntry) : Int :=
  (es.filter (fun e => e.status = st)).length

/-- The sum of `size + originSize` over the MODIFIED entries. -/
def sumModified (es : List diffEntry) : Int :=
  ((es.filter (fun e => e.status = .DIFF_STATUS_MODIFIED)).map
    (fun e => e.size + e.originSize)).sum

/-- The size the specification gives for previous size `S` and diff `es`:
`S` plus the sizes of the ADDED entries, minus the sizes of the DELETED
entries, plus size and prior size of the MODIFIED entries. -/
def specSize (S : Int) (es : List diffEntry) : Int :=
  S + sumSizes .DIFF_STATUS_ADDED es - sumSizes .DIFF_STATUS_DELETED es + sumModified es

/-- The file count the specification gives for previous count `F` and diff
`es`: `F` plus the number of ADDED entries minus the number of DELETED
entries. -/
def specFileCount (F : Int) (es : List diffEntry) : Int :=
  F + countEntries .DIFF_STATUS_ADDED es - countEntries .DIFF_STATUS_DELETED es

/-! ## Reading the list of calls -/

/-- The call is the one of `setRepoSizeAndFileCount` (source line 120). -/
def Call.isSet : Call → Bool
  | .setRepoSizeAndFileCount _ _ _ _ _ => true
  | _ => false

/-- The call is the one of `diffCommits` (source line 90): the incremental
path. -/
def Call.isDiff : Call → Bool
  | .diffCommits _ _ _ => true
  | _ => false

/-- The call is the one of `fsmgr.GetFileCountInfoByPath` (source line 110):
the full-walk path. -/
def Call.isCount : Call → Bool
  | .getFileCountInfoByPath _ _ _ _ => true
  | _ => false

/-- The source line of the call. -/
def Call.site : Call → Nat
  | .repomgrGet _ _ => 59
  | .getOldRepoInfo _ _ => 64
  | .loadHead _ _ _ => 74
  | .loadOldHead _ _ _ => 82
  | .diffCommits _ _ _ => 90
  | .getFileCountInfoByPath _ _ _ _ => 110
  | .setRepoSizeAndFileCount _ _ _ _ _ => 120

/-- The call is one of the five failures before persistence: the repository is
absent, the prior-record lookup fails, loading the head commit fails, the diff
fails, or the tree count fails. -/
def Call.isFailureBeforeWrite : Call → Bool
  | .repomgrGet _ false => true
  | .getOldRepoInfo _ false => true
  | .loadHead _ _ false => true
  | .diffCommits _ _ false => true
  | .getFileCountInfoByPath _ _ _ false => true
  | _ => false

/-- The call is a `setRepoSizeAndFileCount` that returned an error. -/
def Call.isFailedSet : Call → Bool
  | .setRepoSizeAndFileCount _ _ _ _ false => true
  | _ => false

/-- The recorded call is one that `computeRepoSize` makes for `repoID` in world
`w` on tables `db`: its arguments are the ones the source passes and its
result is the one the collaborator gives. -/
def Call.agrees (w : World) (db : DB) (repoID : String) : Call → Prop
  | .repomgrGet id found => id = repoID ∧ found = (w.repomgrGet repoID).isSome
  | .getOldRepoInfo id ok => id = repoID ∧ ok = (w.repomgrGetOldRepoInfo db repoID).toBool
  | .loadHead r c ok =>
    ∃ repo, w.repomgrGet repoID = some repo ∧ r = repo.ID ∧ c = repo.HeadCommitID ∧
      ok = (w.commitmgrLoad r c).toBool
  | .loadOldHead r c ok =>
    ∃ repo info, w.repomgrGet repoID = some repo ∧
      w.repomgrGetOldRepoInfo db repoID = .ok (some info) ∧ r = repo.ID ∧ c = info.HeadID ∧
      ok = (w.commitmgrLoad r c).toBool
  | .diffCommits oldHead head ok =>
    ∃ repo info, w.repomgrGet repoID = some repo ∧
      w.repomgrGetOldRepoInfo db repoID = .ok (some info) ∧
      w.commitmgrLoad repo.ID info.HeadID = .ok oldHead ∧
      w.commitmgrLoad repo.ID repo.HeadCommitID = .ok head ∧
      ok = (w.diffCommits oldHead head).toBool
  | .getFileCountInfoByPath storeID rootID path ok =>
    ∃ repo, w.repomgrGet repoID = some repo ∧ storeID = repo.StoreID ∧ rootID = repo.RootID ∧
      path = "/" ∧ ok = (w.fsmgrGetFileCountInfoByPath storeID rootID path).toBool
  | .setRepoSizeAndFileCount id headID size fileCount ok =>
    ∃ repo, w.repomgrGet repoID = some repo ∧ id = repoID ∧ headID = repo.HeadCommitID ∧
      ok = (SizeSched.setRepoSizeAndFileCount w.faults db id headID size fileCount).err.isNone

/-! ## Theorems: `setRepoSizeAndFileCount` -/

/-- An error from the second half leaves the durable tables as they were. -/
theorem setFileCountAndCommit_error_keeps_db (f : Faults) (db tx : DB) (log : List Stmt)
    (repoID : String) (fileCount : Int)
    (h : (setFileCountAndCommit f db tx log repoID fileCount).err ≠ Option.none) :
    (setFileCountAndCommit f db tx log repoID fileCount).db = db := by
  unfold setFileCountAndCommit at h ⊢
  split at h
  · rfl
  · split at h
    · split at h
      · simp_all
      · simp at h
    · split at h
      · simp_all
      · simp at h

/-- An error from `setRepoSizeAndFileCount` leaves the durable tables as they
were. -/
theorem set_error_keeps_db (f : Faults) (db : DB) (repoID newHeadID : String)
    (size fileCount : Int)
    (h : (setRepoSizeAndFileCount f db repoID newHeadID size fileCount).err ≠ Option.none) :
    (setRepoSizeAndFileCount f db repoID newHeadID size fileCount).db = db := by
  unfold setRepoSizeAndFileCount at h ⊢
  split at h
  · simp [*]
  · simp only at h
    split at h
    · simp [*]
    · split at h
      · split at h
        · simp [*]
        · simpa [*] using setFileCountAndCommit_error_keeps_db _ _ _ _ _ _ h
      · split at h
        · simp [*]
        · simpa [*] using setFileCountAndCommit_error_keeps_db _ _ _ _ _ _ h

/-- When the second half returns no error and the commit takes effect, the
durable tables are the pending ones with the file count of `repoID` set; the
`RepoSize` table is the pending one. -/
theorem setFileCountAndCommit_success (f : Faults) (db tx : DB) (log : List Stmt)
    (repoID : String) (fileCount : Int) (hc : f.commitFails = false)
    (h : (setFileCountAndCommit f db tx log repoID fileCount).err = Option.none) :
    (setFileCountAndCommit f db tx log repoID fileCount).db.RepoSize = tx.RepoSize ∧
    (setFileCountAndCommit f db tx log repoID fileCount).db.RepoFileCount repoID
      = some fileCount ∧
    ∀ k, k ≠ repoID →
      (setFileCountAndCommit f db tx log repoID fileCount).db.RepoFileCount k
        = tx.RepoFileCount k := by
  unfold setFileCountAndCommit at h ⊢
  split at h
  · simp at h
  · rename_i exist hq
    simp only [hq]
    unfold scanExist at hq
    split at h
    · split at h
      · simp at h
      · rename_i tx2 hu
        simp only [hu, hc]
        unfold execUpdateRepoFileCount at hu
        split at hu
        · simp at hu
        · split at hq
          · simp at hq
          · split at hq
            · rename_i v hv
              cases hu
              simp_all
            · simp_all
    · split at h
      · simp at h
      · rename_i tx2 hu
        simp only [hu, hc]
        unfold execInsertRepoFileCount at hu
        split at hu
        · simp at hu
        · split at hu
          · simp at hu
          · cases hu
            simp_all

/-- A successful insert into `RepoSize` sets the row of `repoID` and no other
row of either table. -/
theorem execInsertRepoSize_some (fails : Bool) (tx tx1 : DB) (repoID headID : String)
    (size : Int) (h : execInsertRepoSize fails tx repoID size headID = some tx1) :
    tx1.RepoSize repoID = some ⟨size, headID⟩ ∧ tx1.RepoFileCount = tx.RepoFileCount ∧
    ∀ k, k ≠ repoID → tx1.RepoSize k = tx.RepoSize k := by
  unfold execInsertRepoSize at h
  split at h
  · simp at h
  · split at h
    · simp at h
    · cases h
      simp_all

/-- A successful update of `RepoSize` on a key that has a row sets the row of
`repoID` and no other row of either table. -/
theorem execUpdateRepoSize_some (fails : Bool) (tx tx1 : DB) (repoID headID : String)
    (size : Int) (row : RepoSizeRow) (hrow : tx.RepoSize repoID = some row)
    (h : execUpdateRepoSize fails tx size headID repoID = some tx1) :
    tx1.RepoSize repoID = some ⟨size, headID⟩ ∧ tx1.RepoFileCount = tx.RepoFileCount ∧
    ∀ k, k ≠ repoID → tx1.RepoSize k = tx.RepoSize k := by
  unfold execUpdateRepoSize at h
  split at h
  · simp at h
  · cases h
    simp_all

/-- The query of the head marker returns a non-empty string only from a row. -/
theorem scanHeadID_ne_empty (fails : Bool) (tx : DB) (repoID headID : String)
    (h : scanHeadID fails tx repoID = some headID) (hne : headID ≠ "") :
    ∃ row, tx.RepoSize repoID = some row := by
  unfold scanHeadID at h
  split at h
  · simp at h
  · split at h
    · exact ⟨_, by assumption⟩
    · simp at h
      exact absurd h.symm hne

/-- When `setRepoSizeAndFileCount` returns no error and the commit takes
effect, both rows of `repoID` hold the new values and no other row of either
table has changed. -/
theorem set_success_rows (f : Faults) (db : DB) (repoID newHeadID : String)
    (size fileCount : Int) (hc : f.commitFails = false)
    (h : (setRepoSizeAndFileCount f db repoID newHeadID size fileCount).err = Option.none) :
    (setRepoSizeAndFileCount f db repoID newHeadID size fileCount).db.RepoSize repoID
      = some ⟨size, newHeadID⟩ ∧
    (setRepoSizeAndFileCount f db repoID newHeadID size fileCount).db.RepoFileCount repoID
      = some fileCount ∧
    ∀ k, k ≠ repoID →
      (setRepoSizeAndFileCount f db repoID newHeadID size fileCount).db.RepoSize k
        = db.RepoSize k ∧
      (setRepoSizeAndFileCount f db repoID newHeadID size fileCount).db.RepoFileCount k
        = db.RepoFileCount k := by
  unfold setRepoSizeAndFileCount at h ⊢
  split at h
  · simp at h
  · simp only at h
    split at h
    · simp at h
    · rename_i headID hq
      split at h
      · split at h
        · simp at h
        · rename_i tx1 hi
          simp only [*, if_true, Bool.false_eq_true, if_false]
          have h1 := execInsertRepoSize_some _ _ _ _ _ _ hi
          have h2 := setFileCountAndCommit_success f db tx1 _ repoID fileCount hc h
          refine ⟨by rw [h2.1]; exact h1.1, h2.2.1, fun k hk => ⟨?_, ?_⟩⟩
          · rw [h2.1]; exact h1.2.2 k hk
          · rw [h2.2.2 k hk, h1.2.1]
      · rename_i hne
        split at h
        · simp at h
        · rename_i tx1 hi
          simp only [*, if_true, Bool.false_eq_true, if_false]
          obtain ⟨row, hrow⟩ := scanHeadID_ne_empty _ _ _ _ hq hne
          have h1 := execUpdateRepoSize_some _ _ _ _ _ _ row hrow hi
          have h2 := setFileCountAndCommit_success f db tx1 _ repoID fileCount hc h
          refine ⟨by rw [h2.1]; exact h1.1, h2.2.1, fun k hk => ⟨?_, ?_⟩⟩
          · rw [h2.1]; exact h1.2.2 k hk
          · rw [h2.2.2 k hk, h1.2.1]

/-- A query that returns a value did not fail. -/
theorem scanHeadID_some (fails : Bool) (tx : DB) (repoID headID : String)
    (h : scanHeadID fails tx repoID = some headID) : fails = false := by
  unfold scanHeadID at h
  cases fails <;> simp_all

/-- A query that returns a value did not fail. -/
theorem scanExist_some (fails : Bool) (tx : DB) (repoID : String) (exist : Int)
    (h : scanExist fails tx repoID = some exist) : fails = false := by
  unfold scanExist at h
  cases fails <;> simp_all

/-- A write that goes through did not fail. -/
theorem execInsertRepoSize_ok (fails : Bool) (tx tx1 : DB) (repoID headID : String)
    (size : Int) (h : execInsertRepoSize fails tx repoID size headID = some tx1) :
    fails = false := by
  unfold execInsertRepoSize at h
  cases fails <;> simp_all

/-- A write that goes through did not fail. -/
theorem execUpdateRepoSize_ok (fails : Bool) (tx tx1 : DB) (repoID headID : String)
    (size : Int) (h : execUpdateRepoSize fails tx size headID repoID = some tx1) :
    fails = false := by
  unfold execUpdateRepoSize at h
  cases fails <;> simp_all

/-- A write that goes through did not fail. -/
theorem execInsertRepoFileCount_ok (fails : Bool) (tx tx1 : DB) (repoID : String)
    (fileCount : Int) (h : execInsertRepoFileCount fails tx repoID fileCount = some tx1) :
    fails = false := by
  unfold execInsertRepoFileCount at h
  cases fails <;> simp_all

/-- A write that goes through did not fail. -/
theorem execUpdateRepoFileCount_ok (fails : Bool) (tx tx1 : DB) (repoID : String)
    (fileCount : Int) (h : execUpdateRepoFileCount fails tx fileCount repoID = some tx1) :
    fails = false := by
  unfold execUpdateRepoFileCount at h
  cases fails <;> simp_all

/-- When the second half returns no error, neither its query nor its write
failed. -/
theorem setFileCountAndCommit_ok_flags (f : Faults) (db tx : DB) (log : List Stmt)
    (repoID : String) (fileCount : Int)
    (h : (setFileCountAndCommit f db tx log repoID fileCount).err = Option.none) :
    f.selectCountFails = false ∧ f.writeCountFails = false := by
  unfold setFileCountAndCommit at h
  split at h
  · simp at h
  · rename_i exist hq
    have h1 := scanExist_some _ _ _ _ hq
    split at h
    · split at h
      · simp at h
      · rename_i tx2 hu
        exact ⟨h1, execUpdateRepoFileCount_ok _ _ _ _ _ hu⟩
    · split at h
      · simp at h
      · rename_i tx2 hu
        exact ⟨h1, execInsertRepoFileCount_ok _ _ _ _ _ hu⟩

/-- When `setRepoSizeAndFileCount` returns no error, no step before the commit
failed. -/
theorem set_ok_flags (f : Faults) (db : DB) (repoID newHeadID : String) (size fileCount : Int)
    (h : (setRepoSizeAndFileCount f db repoID newHeadID size fileCount).err = Option.none) :
    f.beginFails = false ∧ f.selectHeadFails = false ∧ f.writeSizeFails = false ∧
    f.selectCountFails = false ∧ f.writeCountFails = false := by
  unfold setRepoSizeAndFileCount at h
  split at h
  · simp at h
  · rename_i hb
    simp only at h
    split at h
    · simp at h
    · rename_i headID hq
      have h1 := scanHeadID_some _ _ _ _ hq
      split at h
      · split at h
        · simp at h
        · rename_i tx1 hi
          have h2 := setFileCountAndCommit_ok_flags _ _ _ _ _ _ h
          exact ⟨by simpa using hb, h1, execInsertRepoSize_ok _ _ _ _ _ _ hi, h2.1, h2.2⟩
      · split at h
        · simp at h
        · rename_i tx1 hi
          have h2 := setFileCountAndCommit_ok_flags _ _ _ _ _ _ h
          exact ⟨by simpa using hb, h1, execUpdateRepoSize_ok _ _ _ _ _ _ hi, h2.1, h2.2⟩

/-- A storage failure at the start of the transaction, in either query or in
either write makes `setRepoSizeAndFileCount` return an error. -/
theorem set_error_of_fault_before_commit (f : Faults) (db : DB) (repoID newHeadID : String)
    (size fileCount : Int)
    (h : f.beginFails = true ∨ f.selectHeadFails = true ∨ f.writeSizeFails = true ∨
      f.selectCountFails = true ∨ f.writeCountFails = true) :
    (setRepoSizeAndFileCount f db repoID newHeadID size fileCount).err ≠ Option.none := by
  intro hn
  obtain ⟨h1, h2, h3, h4, h5⟩ := set_ok_flags f db repoID newHeadID size fileCount hn
  simp [h1, h2, h3, h4, h5] at h

/-- When `setRepoSizeAndFileCount` returns no error and the commit takes
effect, the rows of `repoID` and the lookup of `repoID` give the new values. -/
theorem set_round_trip_rows (f : Faults) (db : DB)
    (repoID newHeadID : String) (size fileCount : Int) (hc : f.commitFails = false)
    (h : (setRepoSizeAndFileCount f db repoID newHeadID size fileCount).err = Option.none) :
    (setRepoSizeAndFileCount f db repoID newHeadID size fileCount).db.RepoSize repoID
      = some ⟨size, newHeadID⟩ ∧
    (setRepoSizeAndFileCount f db repoID newHeadID size fileCount).db.RepoFileCount repoID
      = some fileCount ∧
    getPreviousSizeInfo (setRepoSizeAndFileCount f db repoID newHeadID size fileCount).db repoID
      = .ok (some ⟨newHeadID, size, fileCount⟩) := by
  obtain ⟨h1, h2, -⟩ := set_success_rows f db repoID newHeadID size fileCount hc h
  refine ⟨h1, h2, ?_⟩
  unfold getPreviousSizeInfo
  rw [h1, h2]

/-! ### C6, C7, C8, C10 -/

/-- C6 as worded, refuted.  Repository `r` is recorded at `{c1, 300, 3}`; every
statement of `setRepoSizeAndFileCount("r", "c2", 100, 5)` succeeds and the
final commit fails.  The call returns success, and the lookup of `r` still
gives `{c1, 300, 3}`, not `{c2, 100, 5}`. -/
theorem lookup_stale_after_failed_commit :
    (setRepoSizeAndFileCount Faults.commitOnly dbAtC1 "r" "c2" 100 5).err = Option.none ∧
    getPreviousSizeInfo (setRepoSizeAndFileCount Faults.commitOnly dbAtC1 "r" "c2" 100 5).db "r"
      = .ok (some ⟨"c1", 300, 3⟩) ∧
    getPreviousSizeInfo (setRepoSizeAndFileCount Faults.commitOnly dbAtC1 "r" "c2" 100 5).db "r"
      ≠ .ok (some ⟨"c2", 100, 5⟩) := by
  refine ⟨by decide, by decide, by decide⟩

/-- C6, amended (persistence round trip).  For every prior state of the two
tables (row present or absent in each), every `repoID`, `newHeadID`, `size`
and `fileCount`, and every pattern of storage faults in which the final commit
of the transaction does not fail: after `setRepoSizeAndFileCount` returns
success, the `RepoSize` row of `repoID` is `(size, newHeadID)`, its
`RepoFileCount` row is `fileCount`, and the lookup of `repoID` returns exactly
head marker `newHeadID`, size `size` and file count `fileCount`. -/
theorem setRepoSizeAndFileCount_round_trip (f : Faults) (db : DB) (repoID newHeadID : String)
    (size fileCount : Int) (hc : f.commitFails = false)
    (h : (setRepoSizeAndFileCount f db repoID newHeadID size fileCount).err = Option.none) :
    (setRepoSizeAndFileCount f db repoID newHeadID size fileCount).db.RepoSize repoID
      = some ⟨size, newHeadID⟩ ∧
    (setRepoSizeAndFileCount f db repoID newHeadID size fileCount).db.RepoFileCount repoID
      = some fileCount ∧
    getPreviousSizeInfo (setRepoSizeAndFileCount f db repoID newHeadID size fileCount).db repoID
      = .ok (some ⟨newHeadID, size, fileCount⟩) := by
  exact set_round_trip_rows f db repoID newHeadID size fileCount hc h

/-- C6, the scenario of the spec on each kind of prior state:
`upsert(repo, head "c2", size 100, fileCount 5)` succeeds and the lookup then
gives `{headID: "c2", size: 100, fileCount: 5}` on the empty tables (INSERT and
INSERT), on a repository with both rows (UPDATE and UPDATE), with only the
`RepoSize` row (UPDATE and INSERT) and with only the `RepoFileCount` row
(INSERT and UPDATE). -/
theorem setRepoSizeAndFileCount_round_trip_witness :
    ((setRepoSizeAndFileCount Faults.reliable DB.empty "repo" "c2" 100 5).err = Option.none ∧
      getPreviousSizeInfo (setRepoSizeAndFileCount Faults.reliable DB.empty "repo" "c2" 100 5).db
        "repo" = .ok (some ⟨"c2", 100, 5⟩)) ∧
    ((setRepoSizeAndFileCount Faults.reliable dbAtC1 "r" "c2" 100 5).stmts
        = [.begin, .selectHeadID "r", .updateRepoSize 100 "c2" "r", .selectFileCount "r",
           .updateRepoFileCount 5 "r", .commit] ∧
      getPreviousSizeInfo (setRepoSizeAndFileCount Faults.reliable dbAtC1 "r" "c2" 100 5).db "r"
        = .ok (some ⟨"c2", 100, 5⟩)) ∧
    ((setRepoSizeAndFileCount Faults.reliable dbSizeOnly "r" "c2" 100 5).stmts
        = [.begin, .selectHeadID "r", .updateRepoSize 100 "c2" "r", .selectFileCount "r",
           .insertRepoFileCount "r" 5, .commit] ∧
      getPreviousSizeInfo (setRepoSizeAndFileCount Faults.reliable dbSizeOnly "r" "c2" 100 5).db
        "r" = .ok (some ⟨"c2", 100, 5⟩)) ∧
    ((setRepoSizeAndFileCount Faults.reliable dbCountOnly "r" "c2" 100 5).stmts
        = [.begin, .selectHeadID "r", .insertRepoSize "r" 100 "c2", .selectFileCount "r",
           .updateRepoFileCount 5 "r", .commit] ∧
      getPreviousSizeInfo (setRepoSizeAndFileCount Faults.reliable dbCountOnly "r" "c2" 100 5).db
        "r" = .ok (some ⟨"c2", 100, 5⟩)) :=
  ⟨⟨by decide,
    (setRepoSizeAndFileCount_round_trip Faults.reliable DB.empty "repo" "c2" 100 5 rfl
      (by decide)).2.2⟩,
   ⟨by decide,
    (setRepoSizeAndFileCount_round_trip Faults.reliable dbAtC1 "r" "c2" 100 5 rfl
      (by decide)).2.2⟩,
   ⟨by decide,
    (setRepoSizeAndFileCount_round_trip Faults.reliable dbSizeOnly "r" "c2" 100 5 rfl
      (by decide)).2.2⟩,
   ⟨by decide,
    (setRepoSizeAndFileCount_round_trip Faults.reliable dbCountOnly "r" "c2" 100 5 rfl
      (by decide)).2.2⟩⟩

/-- C7, the failing input.  Every statement succeeds and only the final commit
of the transaction fails: `setRepoSizeAndFileCount` sends the commit, returns
`nil`, and the tables still hold no record of the repository. -/
theorem setRepoSizeAndFileCount_commit_failure_returns_nil :
    (setRepoSizeAndFileCount Faults.commitOnly DB.empty "r" "c2" 100 5).err = Option.none ∧
    (setRepoSizeAndFileCount Faults.commitOnly DB.empty "r" "c2" 100 5).stmts
      = [.begin, .selectHeadID "r", .insertRepoSize "r" 100 "c2", .selectFileCount "r",
         .insertRepoFileCount "r" 5, .commit] ∧
    getPreviousSizeInfo (setRepoSizeAndFileCount Faults.commitOnly DB.empty "r" "c2" 100 5).db "r"
      = .ok Option.none :=
  ⟨by decide, by decide, rfl⟩

/-- C8 (transactional atomicity).  Whenever `setRepoSizeAndFileCount` returns
an error, the durable `RepoSize` and `RepoFileCount` tables equal their
pre-call values; in particular, when every statement up to the `RepoFileCount`
write succeeds on the storage and that write fails, the call returns an error
and the rows of the repository in both tables are the pre-call ones. -/
theorem setRepoSizeAndFileCount_atomic (f : Faults) (db : DB) (repoID newHeadID : String)
    (size fileCount : Int) :
    ((setRepoSizeAndFileCount f db repoID newHeadID size fileCount).err ≠ Option.none →
      (setRepoSizeAndFileCount f db repoID newHeadID size fileCount).db = db) ∧
    (f.beginFails = false → f.selectHeadFails = false → f.writeSizeFails = false →
      f.selectCountFails = false → f.writeCountFails = true →
      (setRepoSizeAndFileCount f db repoID newHeadID size fileCount).err ≠ Option.none ∧
      (setRepoSizeAndFileCount f db repoID newHeadID size fileCount).db.RepoSize repoID
        = db.RepoSize repoID ∧
      (setRepoSizeAndFileCount f db repoID newHeadID size fileCount).db.RepoFileCount repoID
        = db.RepoFileCount repoID) := by
  refine ⟨set_error_keeps_db f db repoID newHeadID size fileCount, ?_⟩
  intro _ _ _ _ hw
  have he := set_error_of_fault_before_commit f db repoID newHeadID size fileCount
    (Or.inr (Or.inr (Or.inr (Or.inr hw))))
  have hd := set_error_keeps_db f db repoID newHeadID size fileCount he
  exact ⟨he, by rw [hd], by rw [hd]⟩

/-- C8, the scenario of the spec: repository `r` is recorded at head `c1` with
size 300 and 3 files; the `RepoSize` update to `(350, c2)` succeeds inside the
transaction and the `RepoFileCount` write then fails.  The call returns an
error and the lookup still gives `{c1, 300, 3}`. -/
theorem setRepoSizeAndFileCount_atomic_witness :
    (setRepoSizeAndFileCount Faults.countWriteOnly dbAtC1 "r" "c2" 350 4).stmts
      = [.begin, .selectHeadID "r", .updateRepoSize 350 "c2" "r", .selectFileCount "r",
         .updateRepoFileCount 4 "r", .rollback] ∧
    (setRepoSizeAndFileCount Faults.countWriteOnly dbAtC1 "r" "c2" 350 4).err ≠ Option.none ∧
    (setRepoSizeAndFileCount Faults.countWriteOnly dbAtC1 "r" "c2" 350 4).db = dbAtC1 :=
  ⟨by decide, by decide,
   (setRepoSizeAndFileCount_atomic Faults.countWriteOnly dbAtC1 "r" "c2" 350 4).1 (by decide)⟩

/-- C10, the failing input.  Repository `r` has a `RepoSize` row whose head
marker is the empty string.  `setRepoSizeAndFileCount` sends an INSERT for it,
not an UPDATE; the unique key refuses the INSERT, the transaction is rolled
back and an error is returned. -/
theorem setRepoSizeAndFileCount_inserts_over_empty_head :
    dbEmptyHead.RepoSize "r" = some ⟨1, ""⟩ ∧
    (setRepoSizeAndFileCount Faults.reliable dbEmptyHead "r" "c2" 100 5).stmts
      = [.begin, .selectHeadID "r", .insertRepoSize "r" 100 "c2", .rollback] ∧
    (setRepoSizeAndFileCount Faults.reliable dbEmptyHead "r" "c2" 100 5).err ≠ Option.none := by
  decide

/-! ## Theorems: the arithmetic of the incremental path -/

/-- Reduction absorbs an inner reduction on the left of a sum. -/
theorem wrap64_add_wrap64 (a b : Int) : wrap64 (wrap64 a + b) = wrap64 (a + b) := by
  unfold wrap64; omega

/-- Reduction absorbs an inner reduction on the left of a difference. -/
theorem wrap64_sub_wrap64 (a b : Int) : wrap64 (wrap64 a - b) = wrap64 (a - b) := by
  unfold wrap64; omega

/-- Reduction absorbs an inner reduction on the right of a sum. -/
theorem wrap64_add_wrap64_right (a b : Int) : wrap64 (a + wrap64 b) = wrap64 (a + b) := by
  unfold wrap64; omega

/-- Reduction is the identity on representable integers. -/
theorem wrap64_of_inInt64 (x : Int) (h : inInt64 x) : wrap64 x = x := by
  unfold inInt64 at h; unfold wrap64; omega

/-- Reduction lands in the representable integers. -/
theorem inInt64_wrap64 (x : Int) : inInt64 (wrap64 x) := by
  unfold inInt64 wrap64; omega

/-- Equal reductions stay equal under a common summand. -/
theorem wrap64_congr_add (a b c : Int) (h : wrap64 a = wrap64 b) :
    wrap64 (a + c) = wrap64 (b + c) := by
  unfold wrap64 at h ⊢; omega

theorem sumSizes_cons (st : DiffStatus) (e : diffEntry) (es : List diffEntry) :
    sumSizes st (e :: es) = (if e.status = st then e.size else 0) + sumSizes st es := by
  unfold sumSizes
  by_cases h : e.status = st <;> simp [List.filter_cons, h]

theorem countEntries_cons (st : DiffStatus) (e : diffEntry) (es : List diffEntry) :
    countEntries st (e :: es) = (if e.status = st then 1 else 0) + countEntries st es := by
  unfold countEntries
  by_cases h : e.status = st
  · simp [List.filter_cons, h]; omega
  · simp [List.filter_cons, h]

theorem sumModified_cons (e : diffEntry) (es : List diffEntry) :
    sumModified (e :: es)
      = (if e.status = .DIFF_STATUS_MODIFIED then e.size + e.originSize else 0)
        + sumModified es := by
  unfold sumModified
  by_cases h : e.status = .DIFF_STATUS_MODIFIED <;> simp [List.filter_cons, h]

/-- The loop from any accumulator: up to reduction, the accumulated size is
the specification's size and the accumulated count the specification's
count. -/
theorem foldl_accountEntry (es : List diffEntry) (acc : Int × Int) :
    wrap64 (es.foldl accountEntry acc).1 = wrap64 (specSize acc.1 es) ∧
    wrap64 (es.foldl accountEntry acc).2 = wrap64 (specFileCount acc.2 es) := by
  induction es generalizing acc with
  | nil => simp [specSize, specFileCount, sumSizes, sumModified, countEntries]
  | cons e es ih =>
    obtain ⟨ih1, ih2⟩ := ih (accountEntry acc e)
    rw [List.foldl_cons, ih1, ih2]
    unfold specSize specFileCount
    simp only [sumSizes_cons, countEntries_cons, sumModified_cons]
    unfold accountEntry
    rcases hs : e.status with _ | _ | _ | _ <;> simp <;> (try constructor) <;>
      (unfold wrap64; omega)

/-- The values the incremental path computes from the previous record
`(S, F)` and the diff `es` are the reductions of the specification's size and
file count. -/
theorem accountDiff_totals (S F : Int) (es : List diffEntry) :
    wrap64 (S + (accountDiff es).1) = wrap64 (specSize S es) ∧
    wrap64 (F + (accountDiff es).2) = wrap64 (specFileCount F es) := by
  obtain ⟨h1, h2⟩ := foldl_accountEntry es (0, 0)
  unfold accountDiff
  have e1 : specSize S es = S + specSize 0 es := by unfold specSize; ring
  have e2 : specFileCount F es = F + specFileCount 0 es := by unfold specFileCount; ring
  rw [e1, e2, ← wrap64_add_wrap64_right S, h1, wrap64_add_wrap64_right,
    ← wrap64_add_wrap64_right F, h2, wrap64_add_wrap64_right]
  exact ⟨rfl, rfl⟩

/-! ## Theorems: the paths of `computeRepoSize` -/

/-- Persistence: the one call made, the error returned and the tables left. -/
theorem persistTotals_eq (w : World) (db : DB) (calls : List Call) (repoID : String)
    (repo : Repo) (size fileCount : Int) :
    (persistTotals w db calls repoID repo size fileCount).calls
      = calls ++ [.setRepoSizeAndFileCount repoID repo.HeadCommitID size fileCount
          (setRepoSizeAndFileCount w.faults db repoID repo.HeadCommitID size fileCount).err.isNone]
    ∧ ((persistTotals w db calls repoID repo size fileCount).err = Option.none ↔
        (setRepoSizeAndFileCount w.faults db repoID repo.HeadCommitID size fileCount).err
          = Option.none)
    ∧ (persistTotals w db calls repoID repo size fileCount).db
      = (setRepoSizeAndFileCount w.faults db repoID repo.HeadCommitID size fileCount).db := by
  unfold persistTotals
  cases h : (setRepoSizeAndFileCount w.faults db repoID repo.HeadCommitID size fileCount).err <;>
    simp [h]

/-- The repository is absent. -/
theorem computeRepoSize_no_repo (w : World) (db : DB) (repoID : String)
    (hrepo : w.repomgrGet repoID = Option.none) :
    computeRepoSize w db repoID
      = ⟨some ("[scheduler] failed to get repo " ++ repoID ++ ".\n"), db, [.repomgrGet repoID false]⟩ := by
  unfold computeRepoSize; simp only [hrepo]

/-- The prior-record lookup fails. -/
theorem computeRepoSize_lookup_error (w : World) (db : DB) (repoID : String) (repo : Repo)
    (e : String) (hrepo : w.repomgrGet repoID = some repo)
    (hinfo : w.repomgrGetOldRepoInfo db repoID = .error e) :
    computeRepoSize w db repoID
      = ⟨some ("[scheduler] failed to get old repo info: " ++ e ++ ".\n"), db,
          [.repomgrGet repoID true, .getOldRepoInfo repoID false]⟩ := by
  unfold computeRepoSize; simp only [hrepo, hinfo]

/-- The previous record is current. -/
theorem computeRepoSize_current (w : World) (db : DB) (repoID : String) (repo : Repo)
    (info : RepoInfo) (hrepo : w.repomgrGet repoID = some repo)
    (hinfo : w.repomgrGetOldRepoInfo db repoID = .ok (some info))
    (hcur : info.HeadID = repo.HeadCommitID) :
    computeRepoSize w db repoID
      = ⟨Option.none, db, [.repomgrGet repoID true, .getOldRepoInfo repoID true]⟩ := by
  unfold computeRepoSize; simp [hrepo, hinfo, hcur]

/-- Loading the head commit fails. -/
theorem computeRepoSize_head_error (w : World) (db : DB) (repoID : String) (repo : Repo)
    (info : Option RepoInfo) (e : String) (hrepo : w.repomgrGet repoID = some repo)
    (hinfo : w.repomgrGetOldRepoInfo db repoID = .ok info)
    (hcur : ∀ i, info = some i → i.HeadID ≠ repo.HeadCommitID)
    (hhead : w.commitmgrLoad repo.ID repo.HeadCommitID = .error e) :
    computeRepoSize w db repoID
      = ⟨some ("[scheduler] failed to get head commit " ++ repo.HeadCommitID ++ ".\n"), db,
          [.repomgrGet repoID true, .getOldRepoInfo repoID true,
           .loadHead repo.ID repo.HeadCommitID false]⟩ := by
  unfold computeRepoSize
  cases info with
  | none => simp [hrepo, hinfo, hhead]
  | some i => simp [hrepo, hinfo, hhead, hcur i rfl]

/-- There is no previous record: the full walk. -/
theorem computeRepoSize_no_record (w : World) (db : DB) (repoID : String) (repo : Repo)
    (head : Commit) (hrepo : w.repomgrGet repoID = some repo)
    (hinfo : w.repomgrGetOldRepoInfo db repoID = .ok Option.none)
    (hhead : w.commitmgrLoad repo.ID repo.HeadCommitID = .ok head) :
    computeRepoSize w db repoID
      = fullWalk w db [.repomgrGet repoID true, .getOldRepoInfo repoID true,
          .loadHead repo.ID repo.HeadCommitID true] repoID repo := by
  unfold computeRepoSize; simp [hrepo, hinfo, hhead]

/-- The commit of the previous record's head marker fails to load: the full
walk. -/
theorem computeRepoSize_old_head_error (w : World) (db : DB) (repoID : String) (repo : Repo)
    (info : RepoInfo) (head : Commit) (e : String) (hrepo : w.repomgrGet repoID = some repo)
    (hinfo : w.repomgrGetOldRepoInfo db repoID = .ok (some info))
    (hcur : info.HeadID ≠ repo.HeadCommitID)
    (hhead : w.commitmgrLoad repo.ID repo.HeadCommitID = .ok head)
    (hold : w.commitmgrLoad repo.ID info.HeadID = .error e) :
    computeRepoSize w db repoID
      = fullWalk w db [.repomgrGet repoID true, .getOldRepoInfo repoID true,
          .loadHead repo.ID repo.HeadCommitID true, .loadOldHead repo.ID info.HeadID false]
          repoID repo := by
  unfold computeRepoSize; simp [hrepo, hinfo, hhead, hold, hcur]

/-- The previous record exists and its head commit loads: the incremental
path. -/
theorem computeRepoSize_old_head_ok (w : World) (db : DB) (repoID : String) (repo : Repo)
    (info : RepoInfo) (head oldHead : Commit) (hrepo : w.repomgrGet repoID = some repo)
    (hinfo : w.repomgrGetOldRepoInfo db repoID = .ok (some info))
    (hcur : info.HeadID ≠ repo.HeadCommitID)
    (hhead : w.commitmgrLoad repo.ID repo.HeadCommitID = .ok head)
    (hold : w.commitmgrLoad repo.ID info.HeadID = .ok oldHead) :
    computeRepoSize w db repoID
      = incremental w db [.repomgrGet repoID true, .getOldRepoInfo repoID true,
          .loadHead repo.ID repo.HeadCommitID true, .loadOldHead repo.ID info.HeadID true]
          repoID repo info oldHead head := by
  unfold computeRepoSize; simp [hrepo, hinfo, hhead, hold, hcur]

/-- The tree count fails on the full walk. -/
theorem fullWalk_error (w : World) (db : DB) (calls : List Call) (repoID : String)
    (repo : Repo) (e : String)
    (h : w.fsmgrGetFileCountInfoByPath repo.StoreID repo.RootID "/" = .error e) :
    fullWalk w db calls repoID repo
      = ⟨some "[scheduler] failed to get file count.\n", db,
          calls ++ [.getFileCountInfoByPath repo.StoreID repo.RootID "/" false]⟩ := by
  unfold fullWalk; simp only [h]

/-- The tree count succeeds on the full walk. -/
theorem fullWalk_ok (w : World) (db : DB) (calls : List Call) (repoID : String)
    (repo : Repo) (fc : FileCountInfo)
    (h : w.fsmgrGetFileCountInfoByPath repo.StoreID repo.RootID "/" = .ok fc) :
    fullWalk w db calls repoID repo
      = persistTotals w db (calls ++ [.getFileCountInfoByPath repo.StoreID repo.RootID "/" true])
          repoID repo fc.Size fc.FileCount := by
  unfold fullWalk; simp only [h]

/-- The diff fails on the incremental path. -/
theorem incremental_error (w : World) (db : DB) (calls : List Call) (repoID : String)
    (repo : Repo) (info : RepoInfo) (oldHead head : Commit) (e : String)
    (h : w.diffCommits oldHead head = .error e) :
    incremental w db calls repoID repo info oldHead head
      = ⟨some ("[scheduler] failed to do diff commits: " ++ e ++ ".\n"), db,
          calls ++ [.diffCommits oldHead head false]⟩ := by
  unfold incremental; simp only [h]

/-- The diff succeeds on the incremental path. -/
theorem incremental_ok (w : World) (db : DB) (calls : List Call) (repoID : String)
    (repo : Repo) (info : RepoInfo) (oldHead head : Commit) (results : List diffEntry)
    (h : w.diffCommits oldHead head = .ok results) :
    incremental w db calls repoID repo info oldHead head
      = persistTotals w db (calls ++ [.diffCommits oldHead head true]) repoID repo
          (wrap64 (info.Size + (accountDiff results).1))
          (wrap64 (info.FileCount + (accountDiff results).2)) := by
  unfold incremental; simp only [h]

/-! ### C2, C3 -/

/-- C2 (the incremental formula).  On the incremental path of
`computeRepoSize`, for every previous record `(S, F)` and every list of diff
entries whose exact totals fit `int64`, the one call of
`setRepoSizeAndFileCount` passes size `S + ΣADDED size − ΣDELETED size +
ΣMODIFIED (size + originSize)`, file count `F + #ADDED − #DELETED` and the
repository's current head commit id.  For a diff of only ADDED entries these are
`S + Σ size` and `F + k`, for a diff of only DELETED entries `S − Σ size` and
`F − k`. -/
theorem computeRepoSize_incremental_totals (w : World) (db : DB) (repoID : String)
    (repo : Repo) (info : RepoInfo) (head oldHead : Commit) (results : List diffEntry)
    (hrepo : w.repomgrGet repoID = some repo)
    (hinfo : w.repomgrGetOldRepoInfo db repoID = .ok (some info))
    (hcur : info.HeadID ≠ repo.HeadCommitID)
    (hhead : w.commitmgrLoad repo.ID repo.HeadCommitID = .ok head)
    (hold : w.commitmgrLoad repo.ID info.HeadID = .ok oldHead)
    (hdiff : w.diffCommits oldHead head = .ok results)
    (hS : inInt64 (specSize info.Size results))
    (hF : inInt64 (specFileCount info.FileCount results)) :
    (∃ ok, (computeRepoSize w db repoID).calls
      = [.repomgrGet repoID true, .getOldRepoInfo repoID true,
         .loadHead repo.ID repo.HeadCommitID true, .loadOldHead repo.ID info.HeadID true,
         .diffCommits oldHead head true,
         .setRepoSizeAndFileCount repoID repo.HeadCommitID (specSize info.Size results)
           (specFileCount info.FileCount results) ok]) ∧
    ((∀ e ∈ results, e.status = .DIFF_STATUS_ADDED) →
      specSize info.Size results = info.Size + (results.map (fun e => e.size)).sum ∧
      specFileCount info.FileCount results = info.FileCount + results.length) ∧
    ((∀ e ∈ results, e.status = .DIFF_STATUS_DELETED) →
      specSize info.Size results = info.Size - (results.map (fun e => e.size)).sum ∧
      specFileCount info.FileCount results = info.FileCount - results.length) := by
  refine ⟨?_, ?_, ?_⟩
  · rw [computeRepoSize_old_head_ok w db repoID repo info head oldHead hrepo hinfo hcur hhead hold,
      incremental_ok _ _ _ _ _ _ _ _ _ hdiff]
    obtain ⟨h1, h2⟩ := accountDiff_totals info.Size info.FileCount results
    rw [h1, h2, wrap64_of_inInt64 _ hS, wrap64_of_inInt64 _ hF]
    exact ⟨_, by rw [(persistTotals_eq _ _ _ _ _ _ _).1]; rfl⟩
  · intro hall
    unfold specSize specFileCount sumSizes sumModified countEntries
    have hA : results.filter (fun e => decide (e.status = .DIFF_STATUS_ADDED)) = results :=
      List.filter_eq_self.mpr (fun e he => by simp [hall e he])
    have hD : results.filter (fun e => decide (e.status = .DIFF_STATUS_DELETED)) = [] :=
      List.filter_eq_nil_iff.mpr (fun e he => by simp [hall e he])
    have hM : results.filter (fun e => decide (e.status = .DIFF_STATUS_MODIFIED)) = [] :=
      List.filter_eq_nil_iff.mpr (fun e he => by simp [hall e he])
    rw [hA, hD, hM]; simp
  · intro hall
    unfold specSize specFileCount sumSizes sumModified countEntries
    have hA : results.filter (fun e => decide (e.status = .DIFF_STATUS_DELETED)) = results :=
      List.filter_eq_self.mpr (fun e he => by simp [hall e he])
    have hD : results.filter (fun e => decide (e.status = .DIFF_STATUS_ADDED)) = [] :=
      List.filter_eq_nil_iff.mpr (fun e he => by simp [hall e he])
    have hM : results.filter (fun e => decide (e.status = .DIFF_STATUS_MODIFIED)) = [] :=
      List.filter_eq_nil_iff.mpr (fun e he => by simp [hall e he])
    rw [hA, hD, hM]; simp

/-- C2, the scenario of the spec: the previous record is `{C1, 300, 3}`, the
head is `C2` and the diff is one ADDED entry of size 50; the call of
`setRepoSizeAndFileCount` passes `{C2, 350, 4}`. -/
theorem computeRepoSize_incremental_totals_witness :
    diffTrees tree300 tree350 = [⟨.DIFF_STATUS_ADDED, "/d", 50, 0⟩] ∧
    ∃ ok, (computeRepoSize (treeWorld "C2" tree300 tree350) (recordOf "R" "C1" tree300) "R").calls
      = [.repomgrGet "R" true, .getOldRepoInfo "R" true, .loadHead "R" "C2" true,
         .loadOldHead "R" "C1" true, .diffCommits ⟨"C1", "root-C1"⟩ ⟨"C2", "root-C2"⟩ true,
         .setRepoSizeAndFileCount "R" "C2" 350 4 ok] :=
  ⟨by decide,
   (computeRepoSize_incremental_totals (treeWorld "C2" tree300 tree350)
      (recordOf "R" "C1" tree300) "R" ⟨"R", "C2", "R", "root-C2"⟩ ⟨"C1", 300, 3⟩
      ⟨"C2", "root-C2"⟩ ⟨"C1", "root-C1"⟩ [⟨.DIFF_STATUS_ADDED, "/d", 50, 0⟩]
      (by decide) rfl (by decide) rfl rfl (by decide) (by decide) (by decide)).1⟩

/-- C3 (no-op on a current record).  For every repository that exists and
whose previously persisted record exists with a head marker equal to the
repository's current head commit id, `computeRepoSize` returns `nil`, calls
nothing but the repository lookup and the record lookup, so never
`setRepoSizeAndFileCount`, and leaves the tables exactly as they were; a
second call, on the tables the first one left, does the same. -/
theorem computeRepoSize_current_is_noop (w : World) (db : DB) (repoID : String) (repo : Repo)
    (info : RepoInfo) (hrepo : w.repomgrGet repoID = some repo)
    (hinfo : w.repomgrGetOldRepoInfo db repoID = .ok (some info))
    (hcur : info.HeadID = repo.HeadCommitID) :
    (computeRepoSize w db repoID).err = Option.none ∧
    (computeRepoSize w db repoID).db = db ∧
    (computeRepoSize w db repoID).calls
      = [.repomgrGet repoID true, .getOldRepoInfo repoID true] ∧
    (∀ c ∈ (computeRepoSize w db repoID).calls, c.isSet = false) ∧
    (computeRepoSize w (computeRepoSize w db repoID).db repoID).err = Option.none ∧
    (computeRepoSize w (computeRepoSize w db repoID).db repoID).db = db ∧
    (∀ c ∈ (computeRepoSize w (computeRepoSize w db repoID).db repoID).calls,
      c.isSet = false) := by
  have h := computeRepoSize_current w db repoID repo info hrepo hinfo hcur
  simp [h, Call.isSet]

/-- C3, the scenario of the spec: the record of `R` is `{C1, 300, 3}` and the
head of `R` is `C1`; `computeRepoSize` returns `nil` and makes no persistence
call. -/
theorem computeRepoSize_current_is_noop_witness :
    (computeRepoSize (treeWorld "C1" tree300 tree300) (recordOf "R" "C1" tree300) "R").err
      = Option.none ∧
    (computeRepoSize (treeWorld "C1" tree300 tree300) (recordOf "R" "C1" tree300) "R").calls
      = [.repomgrGet "R" true, .getOldRepoInfo "R" true] :=
  ⟨(computeRepoSize_current_is_noop (treeWorld "C1" tree300 tree300)
      (recordOf "R" "C1" tree300) "R" ⟨"R", "C1", "R", "root-C1"⟩ ⟨"C1", 300, 3⟩
      (by decide) rfl rfl).1,
   by decide⟩

/-! ### C5 -/

/-- What `persistTotals` leaves when the calls before it hold no failure and
no persistence call: the summary the case analysis of `computeRepoSize`
needs. -/
theorem persistTotals_summary (w : World) (db : DB) (calls : List Call) (repoID : String)
    (repo : Repo) (size fileCount : Int)
    (hfail : ∀ c ∈ calls, c.isFailureBeforeWrite = false)
    (hset : ∀ c ∈ calls, c.isFailedSet = false) :
    (∀ c ∈ (persistTotals w db calls repoID repo size fileCount).calls,
      c.isFailureBeforeWrite = false) ∧
    ((∃ c ∈ (persistTotals w db calls repoID repo size fileCount).calls, c.isFailedSet = true) →
      (persistTotals w db calls repoID repo size fileCount).err ≠ Option.none ∧
      (persistTotals w db calls repoID repo size fileCount).db = db) := by
  obtain ⟨h1, h2, h3⟩ := persistTotals_eq w db calls repoID repo size fileCount
  rw [h1, h3]
  constructor
  · intro c hc
    rcases List.mem_append.mp hc with hc | hc
    · exact hfail c hc
    · rw [List.mem_singleton.mp hc]; rfl
  · rintro ⟨c, hc, hcf⟩
    rcases List.mem_append.mp hc with hc | hc
    · rw [hset c hc] at hcf; cases hcf
    · rw [List.mem_singleton.mp hc] at hcf
      have herr : (setRepoSizeAndFileCount w.faults db repoID repo.HeadCommitID size
          fileCount).err ≠ Option.none := by
        intro hn
        rw [hn] at hcf
        cases hcf
      exact ⟨fun hn => herr (h2.mp hn), set_error_keeps_db _ _ _ _ _ _ herr⟩

/-- The list of calls, read on its own: a recorded failure before persistence
comes with an error, no persistence call and unchanged tables; a recorded
failed persistence call comes with an error and unchanged tables; and no call
site is recorded twice. -/
theorem computeRepoSize_calls_summary (w : World) (db : DB) (repoID : String) :
    ((∃ c ∈ (computeRepoSize w db repoID).calls, c.isFailureBeforeWrite = true) →
      (computeRepoSize w db repoID).err ≠ Option.none ∧
      (∀ c ∈ (computeRepoSize w db repoID).calls, c.isSet = false) ∧
      (computeRepoSize w db repoID).db = db) ∧
    ((∃ c ∈ (computeRepoSize w db repoID).calls, c.isFailedSet = true) →
      (computeRepoSize w db repoID).err ≠ Option.none ∧
      (computeRepoSize w db repoID).db = db) ∧
    ((computeRepoSize w db repoID).calls.map Call.site).Nodup := by
  have persist : ∀ (calls : List Call) (repo : Repo) (size fileCount : Int),
      (∀ c ∈ calls, c.isFailureBeforeWrite = false) → (∀ c ∈ calls, c.isFailedSet = false) →
      (calls.map Call.site).Nodup → (∀ c ∈ calls, c.site ≠ 120) →
      ((∃ c ∈ (persistTotals w db calls repoID repo size fileCount).calls,
          c.isFailureBeforeWrite = true) →
        (persistTotals w db calls repoID repo size fileCount).err ≠ Option.none ∧
        (∀ c ∈ (persistTotals w db calls repoID repo size fileCount).calls, c.isSet = false) ∧
        (persistTotals w db calls repoID repo size fileCount).db = db) ∧
      ((∃ c ∈ (persistTotals w db calls repoID repo size fileCount).calls,
          c.isFailedSet = true) →
        (persistTotals w db calls repoID repo size fileCount).err ≠ Option.none ∧
        (persistTotals w db calls repoID repo size fileCount).db = db) ∧
      ((persistTotals w db calls repoID repo size fileCount).calls.map Call.site).Nodup := by
    intro calls repo size fileCount hfail hset hnd hsite
    obtain ⟨s1, s2⟩ := persistTotals_summary w db calls repoID repo size fileCount hfail hset
    refine ⟨?_, s2, ?_⟩
    · rintro ⟨c, hc, hcf⟩
      rw [s1 c hc] at hcf
      cases hcf
    · rw [(persistTotals_eq w db calls repoID repo size fileCount).1, List.map_append,
        List.nodup_append]
      refine ⟨hnd, by simp, ?_⟩
      intro n hn hn2
      obtain ⟨c, hc, rfl⟩ := List.mem_map.mp hn
      simp [Call.site] at hn2
      exact hsite c hc hn2
  cases hrepo : w.repomgrGet repoID with
  | none =>
    rw [computeRepoSize_no_repo w db repoID hrepo]
    simp [Call.isSet, Call.isFailedSet, Call.site]
  | some repo =>
    cases hinfo : w.repomgrGetOldRepoInfo db repoID with
    | error e =>
      rw [computeRepoSize_lookup_error w db repoID repo e hrepo hinfo]
      simp [Call.isSet, Call.isFailedSet, Call.site]
    | ok info =>
      by_cases hcur : ∃ i, info = some i ∧ i.HeadID = repo.HeadCommitID
      · obtain ⟨i, rfl, hi⟩ := hcur
        rw [computeRepoSize_current w db repoID repo i hrepo hinfo hi]
        simp [Call.isSet, Call.isFailedSet, Call.isFailureBeforeWrite, Call.site]
      · have hcur2 : ∀ i, info = some i → i.HeadID ≠ repo.HeadCommitID :=
          fun i hi hh => hcur ⟨i, hi, hh⟩
        cases hhead : w.commitmgrLoad repo.ID repo.HeadCommitID with
        | error e =>
          rw [computeRepoSize_head_error w db repoID repo info e hrepo hinfo hcur2 hhead]
          simp [Call.isSet, Call.isFailedSet, Call.site]
        | ok head =>
          have walk : ∀ calls : List Call,
              (∀ c ∈ calls, c.isFailureBeforeWrite = false) →
              (∀ c ∈ calls, c.isFailedSet = false) → (∀ c ∈ calls, c.isSet = false) →
              (calls.map Call.site).Nodup → (∀ c ∈ calls, c.site ≠ 120 ∧ c.site ≠ 110) →
              ((∃ c ∈ (fullWalk w db calls repoID repo).calls, c.isFailureBeforeWrite = true) →
                (fullWalk w db calls repoID repo).err ≠ Option.none ∧
                (∀ c ∈ (fullWalk w db calls repoID repo).calls, c.isSet = false) ∧
                (fullWalk w db calls repoID repo).db = db) ∧
              ((∃ c ∈ (fullWalk w db calls repoID repo).calls, c.isFailedSet = true) →
                (fullWalk w db calls repoID repo).err ≠ Option.none ∧
                (fullWalk w db calls repoID repo).db = db) ∧
              ((fullWalk w db calls repoID repo).calls.map Call.site).Nodup := by
            intro calls hfail hfs hset hnd hsite
            cases hfc : w.fsmgrGetFileCountInfoByPath repo.StoreID repo.RootID "/" with
            | error e =>
              rw [fullWalk_error w db calls repoID repo e hfc]
              refine ⟨fun _ => ⟨by simp, ?_, rfl⟩, ?_, ?_⟩
              · intro c hc
                rcases List.mem_append.mp hc with hc | hc
                · exact hset c hc
                · rw [List.mem_singleton.mp hc]; rfl
              · rintro ⟨c, hc, hcf⟩
                rcases List.mem_append.mp hc with hc | hc
                · rw [hfs c hc] at hcf; cases hcf
                · rw [List.mem_singleton.mp hc] at hcf; cases hcf
              · rw [List.map_append, List.nodup_append]
                refine ⟨hnd, by simp, ?_⟩
                intro n hn hn2
                obtain ⟨c, hc, rfl⟩ := List.mem_map.mp hn
                simp [Call.site] at hn2
                exact (hsite c hc).2 hn2
            | ok fc =>
              rw [fullWalk_ok w db calls repoID repo fc hfc]
              apply persist
              · intro c hc
                rcases List.mem_append.mp hc with hc | hc
                · exact hfail c hc
                · rw [List.mem_singleton.mp hc]; rfl
              · intro c hc
                rcases List.mem_append.mp hc with hc | hc
                · exact hfs c hc
                · rw [List.mem_singleton.mp hc]; rfl
              · rw [List.map_append, List.nodup_append]
                refine ⟨hnd, by simp, ?_⟩
                intro n hn hn2
                obtain ⟨c, hc, rfl⟩ := List.mem_map.mp hn
                simp [Call.site] at hn2
                exact (hsite c hc).2 hn2
              · intro c hc
                rcases List.mem_append.mp hc with hc | hc
                · exact (hsite c hc).1
                · rw [List.mem_singleton.mp hc]; simp [Call.site]
          cases info with
          | none =>
            rw [computeRepoSize_no_record w db repoID repo head hrepo hinfo hhead]
            apply walk <;> simp [Call.isSet, Call.isFailedSet, Call.isFailureBeforeWrite, Call.site]
          | some i =>
            have hne : i.HeadID ≠ repo.HeadCommitID := hcur2 i rfl
            cases hold : w.commitmgrLoad repo.ID i.HeadID with
            | error e =>
              rw [computeRepoSize_old_head_error w db repoID repo i head e hrepo hinfo hne hhead
                hold]
              apply walk <;>
                simp [Call.isSet, Call.isFailedSet, Call.isFailureBeforeWrite, Call.site]
            | ok oldHead =>
              rw [computeRepoSize_old_head_ok w db repoID repo i head oldHead hrepo hinfo hne
                hhead hold]
              cases hdiff : w.diffCommits oldHead head with
              | error e =>
                rw [incremental_error w db _ repoID repo i oldHead head e hdiff]
                simp [Call.isSet, Call.isFailedSet, Call.site]
              | ok results =>
                rw [incremental_ok w db _ repoID repo i oldHead head results hdiff]
                apply persist <;>
                  simp [Call.isSet, Call.isFailedSet, Call.isFailureBeforeWrite, Call.site]

/-- C5 (failure aborts without writing).  For every world, every state of the
tables and every repository id:

* if the repository is absent, or
* the prior-record lookup fails, or
* the record is not current and loading the head commit fails, or
* on the incremental path the diff fails, or
* on the full-walk path (no previous record, or an old head that fails to
  load) the tree count fails,

then `computeRepoSize` returns an error, the tables are unchanged and the
calls made are exactly the ones listed, none of them
`setRepoSizeAndFileCount`; and on either path, if `setRepoSizeAndFileCount`
returns an error for the values passed, `computeRepoSize` returns an error too,
after that one call, with the tables unchanged.  No call site is executed
twice. -/
theorem computeRepoSize_failure_aborts (w : World) (db : DB) (repoID : String) :
    (w.repomgrGet repoID = Option.none →
      (computeRepoSize w db repoID).err ≠ Option.none ∧
      (computeRepoSize w db repoID).db = db ∧
      (computeRepoSize w db repoID).calls = [.repomgrGet repoID false]) ∧
    (∀ repo e, w.repomgrGet repoID = some repo →
      w.repomgrGetOldRepoInfo db repoID = .error e →
      (computeRepoSize w db repoID).err ≠ Option.none ∧
      (computeRepoSize w db repoID).db = db ∧
      (computeRepoSize w db repoID).calls
        = [.repomgrGet repoID true, .getOldRepoInfo repoID false]) ∧
    (∀ repo info e, w.repomgrGet repoID = some repo →
      w.repomgrGetOldRepoInfo db repoID = .ok info →
      (∀ i, info = some i → i.HeadID ≠ repo.HeadCommitID) →
      w.commitmgrLoad repo.ID repo.HeadCommitID = .error e →
      (computeRepoSize w db repoID).err ≠ Option.none ∧
      (computeRepoSize w db repoID).db = db ∧
      (computeRepoSize w db repoID).calls
        = [.repomgrGet repoID true, .getOldRepoInfo repoID true,
           .loadHead repo.ID repo.HeadCommitID false]) ∧
    (∀ repo i head oldHead, w.repomgrGet repoID = some repo →
      w.repomgrGetOldRepoInfo db repoID = .ok (some i) →
      i.HeadID ≠ repo.HeadCommitID →
      w.commitmgrLoad repo.ID repo.HeadCommitID = .ok head →
      w.commitmgrLoad repo.ID i.HeadID = .ok oldHead →
      (∀ e, w.diffCommits oldHead head = .error e →
        (computeRepoSize w db repoID).err ≠ Option.none ∧
        (computeRepoSize w db repoID).db = db ∧
        (computeRepoSize w db repoID).calls
          = [.repomgrGet repoID true, .getOldRepoInfo repoID true,
             .loadHead repo.ID repo.HeadCommitID true, .loadOldHead repo.ID i.HeadID true,
             .diffCommits oldHead head false]) ∧
      (∀ results, w.diffCommits oldHead head = .ok results →
        (setRepoSizeAndFileCount w.faults db repoID repo.HeadCommitID
          (wrap64 (i.Size + (accountDiff results).1))
          (wrap64 (i.FileCount + (accountDiff results).2))).err ≠ Option.none →
        (computeRepoSize w db repoID).err ≠ Option.none ∧
        (computeRepoSize w db repoID).db = db ∧
        (computeRepoSize w db repoID).calls
          = [.repomgrGet repoID true, .getOldRepoInfo repoID true,
             .loadHead repo.ID repo.HeadCommitID true, .loadOldHead repo.ID i.HeadID true,
             .diffCommits oldHead head true,
             .setRepoSizeAndFileCount repoID repo.HeadCommitID
               (wrap64 (i.Size + (accountDiff results).1))
               (wrap64 (i.FileCount + (accountDiff results).2)) false])) ∧
    (∀ repo head, w.repomgrGet repoID = some repo →
      w.repomgrGetOldRepoInfo db repoID = .ok Option.none →
      w.commitmgrLoad repo.ID repo.HeadCommitID = .ok head →
      (∀ e, w.fsmgrGetFileCountInfoByPath repo.StoreID repo.RootID "/" = .error e →
        (computeRepoSize w db repoID).err ≠ Option.none ∧
        (computeRepoSize w db repoID).db = db ∧
        (computeRepoSize w db repoID).calls
          = [.repomgrGet repoID true, .getOldRepoInfo repoID true,
             .loadHead repo.ID repo.HeadCommitID true,
             .getFileCountInfoByPath repo.StoreID repo.RootID "/" false]) ∧
      (∀ fc, w.fsmgrGetFileCountInfoByPath repo.StoreID repo.RootID "/" = .ok fc →
        (setRepoSizeAndFileCount w.faults db repoID repo.HeadCommitID fc.Size
          fc.FileCount).err ≠ Option.none →
        (computeRepoSize w db repoID).err ≠ Option.none ∧
        (computeRepoSize w db repoID).db = db ∧
        (computeRepoSize w db repoID).calls
          = [.repomgrGet repoID true, .getOldRepoInfo repoID true,
             .loadHead repo.ID repo.HeadCommitID true,
             .getFileCountInfoByPath repo.StoreID repo.RootID "/" true,
             .setRepoSizeAndFileCount repoID repo.HeadCommitID fc.Size fc.FileCount false])) ∧
    (∀ repo i head e0, w.repomgrGet repoID = some repo →
      w.repomgrGetOldRepoInfo db repoID = .ok (some i) →
      i.HeadID ≠ repo.HeadCommitID →
      w.commitmgrLoad repo.ID repo.HeadCommitID = .ok head →
      w.commitmgrLoad repo.ID i.HeadID = .error e0 →
      (∀ e, w.fsmgrGetFileCountInfoByPath repo.StoreID repo.RootID "/" = .error e →
        (computeRepoSize w db repoID).err ≠ Option.none ∧
        (computeRepoSize w db repoID).db = db ∧
        (computeRepoSize w db repoID).calls
          = [.repomgrGet repoID true, .getOldRepoInfo repoID true,
             .loadHead repo.ID repo.HeadCommitID true, .loadOldHead repo.ID i.HeadID false,
             .getFileCountInfoByPath repo.StoreID repo.RootID "/" false]) ∧
      (∀ fc, w.fsmgrGetFileCountInfoByPath repo.StoreID repo.RootID "/" = .ok fc →
        (setRepoSizeAndFileCount w.faults db repoID repo.HeadCommitID fc.Size
          fc.FileCount).err ≠ Option.none →
        (computeRepoSize w db repoID).err ≠ Option.none ∧
        (computeRepoSize w db repoID).db = db ∧
        (computeRepoSize w db repoID).calls
          = [.repomgrGet repoID true, .getOldRepoInfo repoID true,
             .loadHead repo.ID repo.HeadCommitID true, .loadOldHead repo.ID i.HeadID false,
             .getFileCountInfoByPath repo.StoreID repo.RootID "/" true,
             .setRepoSizeAndFileCount repoID repo.HeadCommitID fc.Size fc.FileCount false])) ∧
    ((computeRepoSize w db repoID).calls.map Call.site).Nodup := by
  have persistFail : ∀ (calls : List Call) (repo : Repo) (size fileCount : Int),
      (setRepoSizeAndFileCount w.faults db repoID repo.HeadCommitID size fileCount).err
        ≠ Option.none →
      (persistTotals w db calls repoID repo size fileCount).err ≠ Option.none ∧
      (persistTotals w db calls repoID repo size fileCount).db = db ∧
      (persistTotals w db calls repoID repo size fileCount).calls
        = calls ++ [.setRepoSizeAndFileCount repoID repo.HeadCommitID size fileCount false] := by
    intro calls repo size fileCount herr
    obtain ⟨h1, h2, h3⟩ := persistTotals_eq w db calls repoID repo size fileCount
    refine ⟨fun hn => herr (h2.mp hn), ?_, ?_⟩
    · rw [h3]; exact set_error_keeps_db _ _ _ _ _ _ herr
    · rw [h1]
      cases hs : (setRepoSizeAndFileCount w.faults db repoID repo.HeadCommitID size
        fileCount).err with
      | none => exact absurd hs herr
      | some e => rfl
  refine ⟨?_, ?_, ?_, ?_, ?_, ?_, (computeRepoSize_calls_summary w db repoID).2.2⟩
  · intro hrepo
    rw [computeRepoSize_no_repo w db repoID hrepo]
    exact ⟨by simp, rfl, rfl⟩
  · intro repo e hrepo hinfo
    rw [computeRepoSize_lookup_error w db repoID repo e hrepo hinfo]
    exact ⟨by simp, rfl, rfl⟩
  · intro repo info e hrepo hinfo hcur hhead
    rw [computeRepoSize_head_error w db repoID repo info e hrepo hinfo hcur hhead]
    exact ⟨by simp, rfl, rfl⟩
  · intro repo i head oldHead hrepo hinfo hne hhead hold
    rw [computeRepoSize_old_head_ok w db repoID repo i head oldHead hrepo hinfo hne hhead hold]
    constructor
    · intro e hdiff
      rw [incremental_error w db _ repoID repo i oldHead head e hdiff]
      exact ⟨by simp, rfl, rfl⟩
    · intro results hdiff herr
      rw [incremental_ok w db _ repoID repo i oldHead head results hdiff]
      obtain ⟨p1, p2, p3⟩ := persistFail
        ([.repomgrGet repoID true, .getOldRepoInfo repoID true,
          .loadHead repo.ID repo.HeadCommitID true, .loadOldHead repo.ID i.HeadID true]
          ++ [.diffCommits oldHead head true]) repo _ _ herr
      exact ⟨p1, p2, by rw [p3]; rfl⟩
  · intro repo head hrepo hinfo hhead
    rw [computeRepoSize_no_record w db repoID repo head hrepo hinfo hhead]
    constructor
    · intro e hfc
      rw [fullWalk_error w db _ repoID repo e hfc]
      exact ⟨by simp, rfl, rfl⟩
    · intro fc hfc herr
      rw [fullWalk_ok w db _ repoID repo fc hfc]
      obtain ⟨p1, p2, p3⟩ := persistFail
        ([.repomgrGet repoID true, .getOldRepoInfo repoID true,
          .loadHead repo.ID repo.HeadCommitID true]
          ++ [.getFileCountInfoByPath repo.StoreID repo.RootID "/" true]) repo _ _ herr
      exact ⟨p1, p2, by rw [p3]; rfl⟩
  · intro repo i head e0 hrepo hinfo hne hhead hold
    rw [computeRepoSize_old_head_error w db repoID repo i head e0 hrepo hinfo hne hhead hold]
    constructor
    · intro e hfc
      rw [fullWalk_error w db _ repoID repo e hfc]
      exact ⟨by simp, rfl, rfl⟩
    · intro fc hfc herr
      rw [fullWalk_ok w db _ repoID repo fc hfc]
      obtain ⟨p1, p2, p3⟩ := persistFail
        ([.repomgrGet repoID true, .getOldRepoInfo repoID true,
          .loadHead repo.ID repo.HeadCommitID true, .loadOldHead repo.ID i.HeadID false]
          ++ [.getFileCountInfoByPath repo.StoreID repo.RootID "/" true]) repo _ _ herr
      exact ⟨p1, p2, by rw [p3]; rfl⟩

/-- C5, two scenarios.  The record of `R` is `{C1, 300, 3}`, the head is `C2`
and the diff fails: `computeRepoSize` returns an error after the diff, makes no
persistence call and leaves the record as it was.  In a world without
repositories `computeRepoSize` returns an error after the repository lookup
and leaves the tables as they were. -/
theorem computeRepoSize_failure_aborts_witness :
    ((computeRepoSize (diffFailsWorld "C2" tree300 tree350) (recordOf "R" "C1" tree300) "R").err
        ≠ Option.none ∧
      (computeRepoSize (diffFailsWorld "C2" tree300 tree350) (recordOf "R" "C1" tree300) "R").db
        = recordOf "R" "C1" tree300 ∧
      (computeRepoSize (diffFailsWorld "C2" tree300 tree350) (recordOf "R" "C1" tree300)
          "R").calls
        = [.repomgrGet "R" true, .getOldRepoInfo "R" true, .loadHead "R" "C2" true,
           .loadOldHead "R" "C1" true,
           .diffCommits ⟨"C1", "root-C1"⟩ ⟨"C2", "root-C2"⟩ false]) ∧
    ((computeRepoSize emptyWorld dbAtC1 "r").err ≠ Option.none ∧
      (computeRepoSize emptyWorld dbAtC1 "r").db = dbAtC1 ∧
      (computeRepoSize emptyWorld dbAtC1 "r").calls = [.repomgrGet "r" false]) :=
  ⟨((computeRepoSize_failure_aborts (diffFailsWorld "C2" tree300 tree350)
      (recordOf "R" "C1" tree300) "R").2.2.2.1 ⟨"R", "C2", "R", "root-C2"⟩ ⟨"C1", 300, 3⟩
      ⟨"C2", "root-C2"⟩ ⟨"C1", "root-C1"⟩ (by decide) rfl (by decide) rfl rfl).1
      "unreadable tree" rfl,
   (computeRepoSize_failure_aborts emptyWorld dbAtC1 "r").1 rfl⟩

/-! ### C4 -/

/-- The calls of the full walk: the calls before it, the tree count, and, when
the count succeeds, one persistence call with the counted totals and the
repository's head. -/
theorem fullWalk_calls (w : World) (db : DB) (calls : List Call) (repoID : String)
    (repo : Repo) :
    (∃ ok, (fullWalk w db calls repoID repo).calls
        = calls ++ [.getFileCountInfoByPath repo.StoreID repo.RootID "/" ok]
      ∨ ∃ fc ok2, w.fsmgrGetFileCountInfoByPath repo.StoreID repo.RootID "/" = .ok fc ∧
        (fullWalk w db calls repoID repo).calls
          = calls ++ [.getFileCountInfoByPath repo.StoreID repo.RootID "/" true,
              .setRepoSizeAndFileCount repoID repo.HeadCommitID fc.Size fc.FileCount ok2]) := by
  cases hfc : w.fsmgrGetFileCountInfoByPath repo.StoreID repo.RootID "/" with
  | error e =>
    rw [fullWalk_error w db calls repoID repo e hfc]
    exact ⟨false, Or.inl rfl⟩
  | ok fc =>
    rw [fullWalk_ok w db calls repoID repo fc hfc, (persistTotals_eq _ _ _ _ _ _ _).1]
    exact ⟨true, Or.inr ⟨fc, _, rfl, by rw [List.append_assoc]; rfl⟩⟩

/-- The full walk with a tree count that succeeds: the calls made, and the
error and tables of the persistence call. -/
theorem fullWalk_ok_summary (w : World) (db : DB) (calls : List Call) (repoID : String)
    (repo : Repo) (fc : FileCountInfo)
    (hfc : w.fsmgrGetFileCountInfoByPath repo.StoreID repo.RootID "/" = .ok fc) :
    (fullWalk w db calls repoID repo).calls
      = calls ++ [.getFileCountInfoByPath repo.StoreID repo.RootID "/" true,
          .setRepoSizeAndFileCount repoID repo.HeadCommitID fc.Size fc.FileCount
            (setRepoSizeAndFileCount w.faults db repoID repo.HeadCommitID fc.Size
              fc.FileCount).err.isNone] ∧
    ((fullWalk w db calls repoID repo).err = Option.none ↔
      (setRepoSizeAndFileCount w.faults db repoID repo.HeadCommitID fc.Size fc.FileCount).err
        = Option.none) ∧
    (fullWalk w db calls repoID repo).db
      = (setRepoSizeAndFileCount w.faults db repoID repo.HeadCommitID fc.Size fc.FileCount).db := by
  rw [fullWalk_ok w db calls repoID repo fc hfc]
  obtain ⟨h1, h2, h3⟩ := persistTotals_eq w db
    (calls ++ [.getFileCountInfoByPath repo.StoreID repo.RootID "/" true]) repoID repo
    fc.Size fc.FileCount
  exact ⟨by rw [h1]; simp, h2, h3⟩

/-- The calls of the incremental path: the calls before it, the diff, and,
when the diff succeeds, one persistence call. -/
theorem incremental_calls (w : World) (db : DB) (calls : List Call) (repoID : String)
    (repo : Repo) (info : RepoInfo) (oldHead head : Commit) :
    (∃ ok, (incremental w db calls repoID repo info oldHead head).calls
        = calls ++ [.diffCommits oldHead head ok])
    ∨ ∃ size fileCount ok2, (incremental w db calls repoID repo info oldHead head).calls
        = calls ++ [.diffCommits oldHead head true,
            .setRepoSizeAndFileCount repoID repo.HeadCommitID size fileCount ok2] := by
  cases hdiff : w.diffCommits oldHead head with
  | error e =>
    rw [incremental_error w db calls repoID repo info oldHead head e hdiff]
    exact Or.inl ⟨false, rfl⟩
  | ok results =>
    rw [incremental_ok w db calls repoID repo info oldHead head results hdiff,
      (persistTotals_eq _ _ _ _ _ _ _).1]
    exact Or.inr ⟨_, _, _, by rw [List.append_assoc]; rfl⟩

/-- C4 (path selection and full-walk result).  Once the repository is found,
the lookup has answered, the record is not current and the head commit has
loaded: `computeRepoSize` calls the diff (the incremental path) exactly when a
previous record exists and the commit named by its head marker loads, and
calls the tree count (the full walk) in every other case; on the full walk,
when the tree count for the repository's store and root tree at path `/`
succeeds, the one persistence call passes exactly the counted size and file
count with the repository's current head commit id, and when that call
succeeds on storage whose commit takes effect these are the values in the
tables. -/
theorem computeRepoSize_path_selection (w : World) (db : DB) (repoID : String) (repo : Repo)
    (info : Option RepoInfo) (head : Commit)
    (hrepo : w.repomgrGet repoID = some repo)
    (hinfo : w.repomgrGetOldRepoInfo db repoID = .ok info)
    (hcur : ∀ i, info = some i → i.HeadID ≠ repo.HeadCommitID)
    (hhead : w.commitmgrLoad repo.ID repo.HeadCommitID = .ok head) :
    ((∃ c ∈ (computeRepoSize w db repoID).calls, c.isDiff = true) ↔
      ∃ i oldHead, info = some i ∧ w.commitmgrLoad repo.ID i.HeadID = .ok oldHead) ∧
    ((∃ c ∈ (computeRepoSize w db repoID).calls, c.isCount = true) ↔
      ¬ ∃ i oldHead, info = some i ∧ w.commitmgrLoad repo.ID i.HeadID = .ok oldHead) ∧
    ((¬ ∃ i oldHead, info = some i ∧ w.commitmgrLoad repo.ID i.HeadID = .ok oldHead) →
      ∀ fc, w.fsmgrGetFileCountInfoByPath repo.StoreID repo.RootID "/" = .ok fc →
        (∃ ok, Call.setRepoSizeAndFileCount repoID repo.HeadCommitID fc.Size fc.FileCount ok
          ∈ (computeRepoSize w db repoID).calls) ∧
        (∀ c ∈ (computeRepoSize w db repoID).calls, c.isSet = true →
          ∃ ok, c = .setRepoSizeAndFileCount repoID repo.HeadCommitID fc.Size fc.FileCount ok) ∧
        ((computeRepoSize w db repoID).err = Option.none → w.faults.commitFails = false →
          (computeRepoSize w db repoID).db.RepoSize repoID
            = some ⟨fc.Size, repo.HeadCommitID⟩ ∧
          (computeRepoSize w db repoID).db.RepoFileCount repoID = some fc.FileCount)) := by
  have walk : ∀ calls : List Call, (∀ c ∈ calls, c.isDiff = false) →
      (∀ c ∈ calls, c.isSet = false) →
      (¬ ∃ c ∈ (fullWalk w db calls repoID repo).calls, c.isDiff = true) ∧
      (∃ c ∈ (fullWalk w db calls repoID repo).calls, c.isCount = true) ∧
      ∀ fc, w.fsmgrGetFileCountInfoByPath repo.StoreID repo.RootID "/" = .ok fc →
        (∃ ok, Call.setRepoSizeAndFileCount repoID repo.HeadCommitID fc.Size fc.FileCount ok
          ∈ (fullWalk w db calls repoID repo).calls) ∧
        (∀ c ∈ (fullWalk w db calls repoID repo).calls, c.isSet = true →
          ∃ ok, c = .setRepoSizeAndFileCount repoID repo.HeadCommitID fc.Size fc.FileCount ok) ∧
        ((fullWalk w db calls repoID repo).err = Option.none → w.faults.commitFails = false →
          (fullWalk w db calls repoID repo).db.RepoSize repoID
            = some ⟨fc.Size, repo.HeadCommitID⟩ ∧
          (fullWalk w db calls repoID repo).db.RepoFileCount repoID = some fc.FileCount) := by
    intro calls hnd hns
    refine ⟨?_, ?_, ?_⟩
    · rintro ⟨c, hc, hcd⟩
      obtain ⟨ok, h | ⟨fc, ok2, -, h⟩⟩ := fullWalk_calls w db calls repoID repo
      · rw [h] at hc
        rcases List.mem_append.mp hc with hc | hc
        · rw [hnd c hc] at hcd; cases hcd
        · rw [List.mem_singleton.mp hc] at hcd; cases hcd
      · rw [h] at hc
        rcases List.mem_append.mp hc with hc | hc
        · rw [hnd c hc] at hcd; cases hcd
        · simp only [List.mem_cons, List.mem_singleton, List.not_mem_nil, or_false] at hc
          rcases hc with rfl | rfl <;> cases hcd
    · obtain ⟨ok, h | ⟨fc, ok2, -, h⟩⟩ := fullWalk_calls w db calls repoID repo
      · exact ⟨.getFileCountInfoByPath repo.StoreID repo.RootID "/" ok,
          by rw [h]; exact List.mem_append_right _ (List.mem_singleton_self _), rfl⟩
      · exact ⟨.getFileCountInfoByPath repo.StoreID repo.RootID "/" true,
          by rw [h]; exact List.mem_append_right _ (List.mem_cons_self _ _), rfl⟩
    · intro fc hfc
      obtain ⟨h1, h2, h3⟩ := fullWalk_ok_summary w db calls repoID repo fc hfc
      have hmem : Call.setRepoSizeAndFileCount repoID repo.HeadCommitID fc.Size fc.FileCount
          (setRepoSizeAndFileCount w.faults db repoID repo.HeadCommitID fc.Size
            fc.FileCount).err.isNone ∈ (fullWalk w db calls repoID repo).calls := by
        rw [h1]
        exact List.mem_append_right _ (List.mem_cons_of_mem _ (List.mem_singleton_self _))
      refine ⟨⟨_, hmem⟩, ?_, ?_⟩
      · intro c hc hcs
        rw [h1] at hc
        rcases List.mem_append.mp hc with hc | hc
        · rw [hns c hc] at hcs; cases hcs
        · simp only [List.mem_cons, List.mem_singleton, List.not_mem_nil, or_false] at hc
          rcases hc with rfl | rfl
          · cases hcs
          · exact ⟨_, rfl⟩
      · intro herr hcommit
        rw [h3]
        obtain ⟨r1, r2, -⟩ := set_success_rows w.faults db repoID repo.HeadCommitID fc.Size
          fc.FileCount hcommit (h2.mp herr)
        exact ⟨r1, r2⟩
  cases info with
  | none =>
    rw [computeRepoSize_no_record w db repoID repo head hrepo hinfo hhead]
    obtain ⟨w1, w2, w3⟩ := walk [.repomgrGet repoID true, .getOldRepoInfo repoID true,
      .loadHead repo.ID repo.HeadCommitID true] (by simp [Call.isDiff]) (by simp [Call.isSet])
    have hno : ¬ ∃ i oldHead, (Option.none : Option RepoInfo) = some i ∧
        w.commitmgrLoad repo.ID i.HeadID = .ok oldHead := by simp
    exact ⟨⟨fun h => absurd h w1, fun h => absurd h hno⟩, ⟨fun _ => hno, fun _ => w2⟩,
      fun _ => w3⟩
  | some i =>
    have hne : i.HeadID ≠ repo.HeadCommitID := hcur i rfl
    cases hold : w.commitmgrLoad repo.ID i.HeadID with
    | error e =>
      rw [computeRepoSize_old_head_error w db repoID repo i head e hrepo hinfo hne hhead hold]
      obtain ⟨w1, w2, w3⟩ := walk [.repomgrGet repoID true, .getOldRepoInfo repoID true,
        .loadHead repo.ID repo.HeadCommitID true, .loadOldHead repo.ID i.HeadID false]
        (by simp [Call.isDiff]) (by simp [Call.isSet])
      have hno : ¬ ∃ j oldHead, some i = some j ∧
          w.commitmgrLoad repo.ID j.HeadID = .ok oldHead := by
        rintro ⟨j, oh, hj, hl⟩
        cases hj
        rw [hold] at hl
        cases hl
      exact ⟨⟨fun h => absurd h w1, fun h => absurd h hno⟩, ⟨fun _ => hno, fun _ => w2⟩,
        fun _ => w3⟩
    | ok oldHead =>
      rw [computeRepoSize_old_head_ok w db repoID repo i head oldHead hrepo hinfo hne hhead hold]
      have hyes : ∃ j oh, some i = some j ∧ w.commitmgrLoad repo.ID j.HeadID = .ok oh :=
        ⟨i, oldHead, rfl, hold⟩
      have hdiff : ∃ c ∈ (incremental w db [.repomgrGet repoID true, .getOldRepoInfo repoID true,
          .loadHead repo.ID repo.HeadCommitID true, .loadOldHead repo.ID i.HeadID true]
          repoID repo i oldHead head).calls, c.isDiff = true := by
        rcases incremental_calls w db [.repomgrGet repoID true, .getOldRepoInfo repoID true,
          .loadHead repo.ID repo.HeadCommitID true, .loadOldHead repo.ID i.HeadID true]
          repoID repo i oldHead head with ⟨ok, h⟩ | ⟨sz, fcnt, ok2, h⟩
        · exact ⟨.diffCommits oldHead head ok,
            by rw [h]; exact List.mem_append_right _ (List.mem_singleton_self _), rfl⟩
        · exact ⟨.diffCommits oldHead head true,
            by rw [h]; exact List.mem_append_right _ (List.mem_cons_self _ _), rfl⟩
      have hcount : ¬ ∃ c ∈ (incremental w db [.repomgrGet repoID true,
          .getOldRepoInfo repoID true, .loadHead repo.ID repo.HeadCommitID true,
          .loadOldHead repo.ID i.HeadID true] repoID repo i oldHead head).calls,
          c.isCount = true := by
        rintro ⟨c, hc, hcc⟩
        rcases incremental_calls w db [.repomgrGet repoID true, .getOldRepoInfo repoID true,
          .loadHead repo.ID repo.HeadCommitID true, .loadOldHead repo.ID i.HeadID true]
          repoID repo i oldHead head with ⟨ok, h⟩ | ⟨sz, fcnt, ok2, h⟩
        · rw [h] at hc
          simp only [List.mem_append, List.mem_cons, List.mem_singleton, List.not_mem_nil,
            or_false] at hc
          rcases hc with (rfl | rfl | rfl | rfl) | rfl <;> cases hcc
        · rw [h] at hc
          simp only [List.mem_append, List.mem_cons, List.mem_singleton, List.not_mem_nil,
            or_false] at hc
          rcases hc with (rfl | rfl | rfl | rfl) | rfl | rfl <;> cases hcc
      exact ⟨⟨fun _ => hyes, fun _ => hdiff⟩, ⟨fun h => absurd h hcount, fun h => absurd hyes h⟩,
        fun h => absurd hyes h⟩

/-- C4, the scenario of the spec: repository `R` has no previous record and the
tree of head commit `C1` has 3 files totalling 300 bytes; `computeRepoSize`
persists `{head: C1, size: 300, fileCount: 3}`. -/
theorem computeRepoSize_path_selection_witness :
    countTree tree300 = ⟨3, 300⟩ ∧
    (∃ ok, Call.setRepoSizeAndFileCount "R" "C1" 300 3 ok
      ∈ (computeRepoSize (treeWorld "C1" [] tree300) DB.empty "R").calls) ∧
    getPreviousSizeInfo (computeRepoSize (treeWorld "C1" [] tree300) DB.empty "R").db "R"
      = .ok (some ⟨"C1", 300, 3⟩) :=
  ⟨by decide,
   ((computeRepoSize_path_selection (treeWorld "C1" [] tree300) DB.empty "R"
      ⟨"R", "C1", "R", "root-C1"⟩ Option.none ⟨"C1", "root-C1"⟩ (by decide) rfl
      (fun _ h => nomatch h) rfl).2.2
      (fun h => h.elim (fun _ h2 => h2.elim (fun _ h3 => nomatch h3.1))) ⟨3, 300⟩ rfl).1,
   by decide⟩

/-! ### C1 -/

/-- C1, the failing input.  The old tree holds `/a` of 10 bytes, the new tree
`/a` of 20 bytes; the previous record holds `countTree` of the old tree,
`(10, 1)`, and the diff is the one MODIFIED entry `(size 20, originSize 10)`.
The incremental path of `computeRepoSize` passes size `10 + 20 + 10 = 40` to
persistence, while `countTree` of the new tree is `(20, 1)`, which is also
what `computeRepoSize` persists for the same head on the full walk. -/
theorem computeRepoSize_incremental_modified_diverges :
    (Tree.wellFormed treeA10 ∧ Tree.wellFormed treeA20) ∧
    diffTrees treeA10 treeA20 = [⟨.DIFF_STATUS_MODIFIED, "/a", 20, 10⟩] ∧
    getPreviousSizeInfo (recordOf "R" "C1" treeA10) "R"
      = .ok (some ⟨"C1", (countTree treeA10).Size, (countTree treeA10).FileCount⟩) ∧
    (computeRepoSize (treeWorld "C2" treeA10 treeA20) (recordOf "R" "C1" treeA10) "R").calls
      = [.repomgrGet "R" true, .getOldRepoInfo "R" true, .loadHead "R" "C2" true,
         .loadOldHead "R" "C1" true, .diffCommits ⟨"C1", "root-C1"⟩ ⟨"C2", "root-C2"⟩ true,
         .setRepoSizeAndFileCount "R" "C2" 40 1 true] ∧
    countTree treeA20 = ⟨1, 20⟩ ∧
    (computeRepoSize (treeWorld "C2" treeA10 treeA20) DB.empty "R").calls
      = [.repomgrGet "R" true, .getOldRepoInfo "R" true, .loadHead "R" "C2" true,
         .getFileCountInfoByPath "R" "root-C2" "/" true,
         .setRepoSizeAndFileCount "R" "C2" 20 1 true] := by
  refine ⟨⟨?_, ?_⟩, ?_, ?_, ?_, ?_, ?_⟩
  · unfold Tree.wellFormed; decide
  · unfold Tree.wellFormed; decide
  · decide
  · decide
  · decide
  · decide
  · decide

/-! ### C9 -/

/-- C9 (a worker never requeues or retries).  A step on an empty queue leaves
the state unchanged.  A step that takes a job leaves exactly the rest of the
queue: the job is removed from the head and nothing is added.  If the job's
callback is nil nothing is invoked; otherwise the callback is invoked once,
with the job's repository id, and on an error one line is logged.  This holds
whether the callback returns success or an error. -/
theorem workerStep_never_requeues {σ : Type} (s : Sched σ) :
    (s.jobs = [] → workerStep s = s) ∧
    (∀ job rest, s.jobs = job :: rest →
      (workerStep s).jobs = rest ∧
      (job.callback = Option.none →
        (workerStep s).invoked = s.invoked ∧ (workerStep s).ext = s.ext ∧
        (workerStep s).logged = s.logged) ∧
      (∀ cb, job.callback = some cb →
        (workerStep s).invoked = s.invoked ++ [job.repoID] ∧
        (workerStep s).ext = (cb job.repoID s.ext).2 ∧
        ((cb job.repoID s.ext).1 = Option.none → (workerStep s).logged = s.logged) ∧
        (∀ e, (cb job.repoID s.ext).1 = some e →
          (workerStep s).logged = s.logged ++ ["failed to call jobs: " ++ e ++ ".\n"]))) := by
  constructor
  · intro h
    unfold workerStep
    simp only [h]
  · intro job rest h
    unfold workerStep
    simp only [h]
    cases hcb : job.callback with
    | none => simp
    | some cb =>
      simp only
      cases hres : cb job.repoID s.ext with
      | mk err ext =>
        cases err with
        | none => simp [hres]
        | some e => simp [hres]

/-- C9, a scenario: the queue holds a job for `r1` whose callback fails and a
job for `r2`.  One step leaves the job for `r2` alone in the queue, has invoked
the callback once, with `r1`, and has logged the error; the failed job is not
back in the queue. -/
theorem workerStep_never_requeues_witness :
    (workerStep schedTwoJobs).jobs = [⟨Option.none, "r2"⟩] ∧
    (workerStep schedTwoJobs).invoked = ["r1"] ∧
    (workerStep schedTwoJobs).ext = 1 ∧
    (workerStep schedTwoJobs).logged = ["failed to call jobs: boom.\n"] :=
  ⟨((workerStep_never_requeues schedTwoJobs).2 ⟨some failingCallback, "r1"⟩
      [⟨Option.none, "r2"⟩] rfl).1,
   (((workerStep_never_requeues schedTwoJobs).2 ⟨some failingCallback, "r1"⟩
      [⟨Option.none, "r2"⟩] rfl).2.2 failingCallback rfl).1,
   (((workerStep_never_requeues schedTwoJobs).2 ⟨some failingCallback, "r1"⟩
      [⟨Option.none, "r2"⟩] rfl).2.2 failingCallback rfl).2.1,
   (((workerStep_never_requeues schedTwoJobs).2 ⟨some failingCallback, "r1"⟩
      [⟨Option.none, "r2"⟩] rfl).2.2 failingCallback rfl).2.2.2 "boom" rfl⟩

/-! ## Further theorems -/

/-- The statements sent for `RepoSize`, once the transaction has started and
the query has answered: an INSERT exactly when there is no row or the row's
head marker is the empty string, an UPDATE exactly when there is a row with a
non-empty head marker. -/
theorem set_stmt_choice_size (f : Faults) (db : DB) (repoID newHeadID : String)
    (size fileCount : Int) (hb : f.beginFails = false) (hs : f.selectHeadFails = false) :
    (Stmt.insertRepoSize repoID size newHeadID
        ∈ (setRepoSizeAndFileCount f db repoID newHeadID size fileCount).stmts ↔
      ∀ row, db.RepoSize repoID = some row → row.head_id = "") ∧
    (Stmt.updateRepoSize size newHeadID repoID
        ∈ (setRepoSizeAndFileCount f db repoID newHeadID size fileCount).stmts ↔
      ∃ row, db.RepoSize repoID = some row ∧ row.head_id ≠ "") := by
  unfold setRepoSizeAndFileCount setFileCountAndCommit scanHeadID
  simp only [hb, hs, Bool.false_eq_true, if_false]
  cases hrow : db.RepoSize repoID with
  | none =>
    simp only [if_true]
    constructor
    · constructor
      · intro _ row h; cases h
      · intro _
        repeat' split
        all_goals simp
    · constructor
      · intro h
        exfalso
        revert h
        repeat' split
        all_goals simp
      · rintro ⟨row, h, -⟩; cases h
  | some row =>
    by_cases hh : row.head_id = ""
    · simp only [hh, if_true]
      constructor
      · constructor
        · intro _ r h; cases h; exact hh
        · intro _
          repeat' split
          all_goals simp
      · constructor
        · intro h
          exfalso
          revert h
          repeat' split
          all_goals simp
        · rintro ⟨r, h, hne⟩; cases h; exact absurd hh hne
    · simp only [hh, if_false]
      constructor
      · constructor
        · intro h
          exfalso
          revert h
          repeat' split
          all_goals simp
        · intro h; exact absurd (h row rfl) hh
      · constructor
        · intro _; exact ⟨row, rfl, hh⟩
        · intro _
          repeat' split
          all_goals simp

/-- The statements the second half sends for `RepoFileCount` when its query
answers: an INSERT exactly when the pending table has no row, an UPDATE exactly
when it has one. -/
theorem setFileCountAndCommit_stmt_choice (f : Faults) (db tx : DB) (log : List Stmt)
    (repoID : String) (fileCount : Int) (hs : f.selectCountFails = false)
    (hi : Stmt.insertRepoFileCount repoID fileCount ∉ log)
    (hu : Stmt.updateRepoFileCount fileCount repoID ∉ log) :
    (Stmt.insertRepoFileCount repoID fileCount
        ∈ (setFileCountAndCommit f db tx log repoID fileCount).stmts ↔
      tx.RepoFileCount repoID = Option.none) ∧
    (Stmt.updateRepoFileCount fileCount repoID
        ∈ (setFileCountAndCommit f db tx log repoID fileCount).stmts ↔
      ∃ v, tx.RepoFileCount repoID = some v) := by
  unfold setFileCountAndCommit scanExist
  simp only [hs, Bool.false_eq_true, if_false]
  cases hrow : tx.RepoFileCount repoID with
  | none =>
    simp only [ne_eq, not_true_eq_false, if_false]
    constructor
    · constructor
      · intro _; trivial
      · intro _
        split <;> simp
    · constructor
      · intro h
        exfalso
        revert h
        split <;> simp [hu]
      · rintro ⟨v, h⟩; cases h
  | some v =>
    simp only [ne_eq, one_ne_zero, not_false_eq_true, if_true]
    constructor
    · constructor
      · intro h
        exfalso
        revert h
        split <;> simp [hi]
      · intro h; cases h
    · constructor
      · intro _; exact ⟨v, rfl⟩
      · intro _
        split <;> simp

/-- The statements sent for `RepoFileCount`, once its query has been sent and
has answered: an INSERT exactly when there is no row, an UPDATE exactly when
there is one. -/
theorem set_stmt_choice_count (f : Faults) (db : DB) (repoID newHeadID : String)
    (size fileCount : Int)
    (hsel : Stmt.selectFileCount repoID
      ∈ (setRepoSizeAndFileCount f db repoID newHeadID size fileCount).stmts)
    (hs : f.selectCountFails = false) :
    (Stmt.insertRepoFileCount repoID fileCount
        ∈ (setRepoSizeAndFileCount f db repoID newHeadID size fileCount).stmts ↔
      db.RepoFileCount repoID = Option.none) ∧
    (Stmt.updateRepoFileCount fileCount repoID
        ∈ (setRepoSizeAndFileCount f db repoID newHeadID size fileCount).stmts ↔
      ∃ v, db.RepoFileCount repoID = some v) := by
  unfold setRepoSizeAndFileCount at hsel ⊢
  split at hsel
  · simp at hsel
  · simp only at hsel
    split at hsel
    · simp at hsel
    · rename_i headID hq
      split at hsel
      · split at hsel
        · simp at hsel
        · rename_i tx1 hins
          simp only [*, if_true, Bool.false_eq_true, if_false]
          rw [← (execInsertRepoSize_some _ _ _ _ _ _ hins).2.1]
          exact setFileCountAndCommit_stmt_choice f db tx1 _ repoID fileCount hs
            (by simp) (by simp)
      · rename_i hne
        split at hsel
        · simp at hsel
        · rename_i tx1 hupd
          simp only [*, if_true, Bool.false_eq_true, if_false]
          obtain ⟨row, hrow⟩ := scanHeadID_ne_empty _ _ _ _ hq hne
          rw [← (execUpdateRepoSize_some _ _ _ _ _ _ row hrow hupd).2.1]
          exact setFileCountAndCommit_stmt_choice f db tx1 _ repoID fileCount hs
            (by simp) (by simp)

/-- The run of a worker: after `n` steps the queue is the original one
without its first `n` jobs, so no job ever comes back. -/
theorem workerStep_iterate_jobs {σ : Type} (n : Nat) (s : Sched σ) :
    (workerStep^[n] s).jobs = s.jobs.drop n := by
  induction n generalizing s with
  | zero => simp
  | succ n ih =>
    rw [Function.iterate_succ_apply, ih]
    unfold workerStep
    cases hj : s.jobs with
    | nil => simp [hj]
    | cons job rest =>
      simp only [List.drop_succ_cons]
      cases hcb : job.callback with
      | none => rfl
      | some cb =>
        simp only
        cases hres : cb job.repoID s.ext with
        | mk err ext => cases err <;> rfl

/-- The send of `updateRepoSize` appends one job for `repoID` at the tail of
the queue when the channel has room, and blocks when it holds 10 jobs. -/
theorem updateRepoSize_appends (w : World) (s : Sched DB) (repoID : String) :
    (s.jobs.length < 10 →
      ∃ job s2, updateRepoSize w s repoID = some s2 ∧ s2.jobs = s.jobs ++ [job] ∧
        job.repoID = repoID ∧ s2.ext = s.ext ∧ s2.invoked = s.invoked) ∧
    (10 ≤ s.jobs.length → updateRepoSize w s repoID = Option.none) := by
  unfold updateRepoSize send jobsCapacity
  constructor
  · intro h
    simp only [h, if_true]
    exact ⟨_, _, rfl, rfl, rfl, rfl, rfl⟩
  · intro h
    have : ¬ s.jobs.length < 10 := by omega
    simp only [this, if_false]

/-- A call of `computeRepoSize` that returns `nil` either found the record
current and left the tables alone, or made one persistence call, with the
repository's head, that returned `nil` and left its tables. -/
theorem computeRepoSize_success_cases (w : World) (db : DB) (repoID : String)
    (h : (computeRepoSize w db repoID).err = Option.none) :
    ∃ repo, w.repomgrGet repoID = some repo ∧
      ((∃ info, w.repomgrGetOldRepoInfo db repoID = .ok (some info) ∧
          info.HeadID = repo.HeadCommitID ∧ (computeRepoSize w db repoID).db = db) ∨
       (∃ size fileCount,
          (setRepoSizeAndFileCount w.faults db repoID repo.HeadCommitID size fileCount).err
            = Option.none ∧
          (computeRepoSize w db repoID).db
            = (setRepoSizeAndFileCount w.faults db repoID repo.HeadCommitID size
                fileCount).db)) := by
  have persist : ∀ (calls : List Call) (repo : Repo) (size fileCount : Int),
      (persistTotals w db calls repoID repo size fileCount).err = Option.none →
      ∃ sz cnt,
        (setRepoSizeAndFileCount w.faults db repoID repo.HeadCommitID sz cnt).err
          = Option.none ∧
        (persistTotals w db calls repoID repo size fileCount).db
          = (setRepoSizeAndFileCount w.faults db repoID repo.HeadCommitID sz cnt).db := by
    intro calls repo size fileCount he
    obtain ⟨-, h2, h3⟩ := persistTotals_eq w db calls repoID repo size fileCount
    exact ⟨size, fileCount, h2.mp he, h3⟩
  have walk : ∀ (calls : List Call) (repo : Repo),
      (fullWalk w db calls repoID repo).err = Option.none →
      ∃ size fileCount,
        (setRepoSizeAndFileCount w.faults db repoID repo.HeadCommitID size fileCount).err
          = Option.none ∧
        (fullWalk w db calls repoID repo).db
          = (setRepoSizeAndFileCount w.faults db repoID repo.HeadCommitID size fileCount).db := by
    intro calls repo he
    cases hfc : w.fsmgrGetFileCountInfoByPath repo.StoreID repo.RootID "/" with
    | error e => rw [fullWalk_error w db calls repoID repo e hfc] at he; simp at he
    | ok fc =>
      rw [fullWalk_ok w db calls repoID repo fc hfc] at he ⊢
      exact persist _ _ _ _ he
  cases hrepo : w.repomgrGet repoID with
  | none => rw [computeRepoSize_no_repo w db repoID hrepo] at h; simp at h
  | some repo =>
    refine ⟨repo, rfl, ?_⟩
    cases hinfo : w.repomgrGetOldRepoInfo db repoID with
    | error e => rw [computeRepoSize_lookup_error w db repoID repo e hrepo hinfo] at h; simp at h
    | ok info =>
      by_cases hcur : ∃ i, info = some i ∧ i.HeadID = repo.HeadCommitID
      · obtain ⟨i, rfl, hi⟩ := hcur
        left
        exact ⟨i, rfl, hi, by rw [computeRepoSize_current w db repoID repo i hrepo hinfo hi]⟩
      · right
        have hcur2 : ∀ i, info = some i → i.HeadID ≠ repo.HeadCommitID :=
          fun i hi hh => hcur ⟨i, hi, hh⟩
        cases hhead : w.commitmgrLoad repo.ID repo.HeadCommitID with
        | error e =>
          rw [computeRepoSize_head_error w db repoID repo info e hrepo hinfo hcur2 hhead] at h
          simp at h
        | ok head =>
          cases info with
          | none =>
            rw [computeRepoSize_no_record w db repoID repo head hrepo hinfo hhead] at h ⊢
            exact walk _ _ h
          | some i =>
            have hne : i.HeadID ≠ repo.HeadCommitID := hcur2 i rfl
            cases hold : w.commitmgrLoad repo.ID i.HeadID with
            | error e =>
              rw [computeRepoSize_old_head_error w db repoID repo i head e hrepo hinfo hne hhead
                hold] at h ⊢
              exact walk _ _ h
            | ok oldHead =>
              rw [computeRepoSize_old_head_ok w db repoID repo i head oldHead hrepo hinfo hne
                hhead hold] at h ⊢
              cases hdiff : w.diffCommits oldHead head with
              | error e =>
                rw [incremental_error w db _ repoID repo i oldHead head e hdiff] at h
                simp at h
              | ok results =>
                rw [incremental_ok w db _ repoID repo i oldHead head results hdiff] at h ⊢
                exact persist _ _ _ _ h

/-- Idempotence.  In a world whose record lookup reads the tables and whose
commit takes effect, after a call of `computeRepoSize` that returned `nil` a
second call for the same repository, with its head unchanged, returns `nil`,
makes no persistence call and leaves the tables exactly as the first call left
them. -/
theorem computeRepoSize_second_call_noop (w : World) (db : DB) (repoID : String)
    (hlookup : w.repomgrGetOldRepoInfo = getPreviousSizeInfo)
    (hcommit : w.faults.commitFails = false)
    (h : (computeRepoSize w db repoID).err = Option.none) :
    (computeRepoSize w (computeRepoSize w db repoID).db repoID).err = Option.none ∧
    (computeRepoSize w (computeRepoSize w db repoID).db repoID).db
      = (computeRepoSize w db repoID).db ∧
    (computeRepoSize w (computeRepoSize w db repoID).db repoID).calls
      = [.repomgrGet repoID true, .getOldRepoInfo repoID true] := by
  obtain ⟨repo, hrepo, ⟨info, hinfo, hcur, hdb⟩ | ⟨size, fileCount, herr, hdb⟩⟩ :=
    computeRepoSize_success_cases w db repoID h
  · rw [hdb, computeRepoSize_current w db repoID repo info hrepo hinfo hcur]
    exact ⟨rfl, rfl, rfl⟩
  · obtain ⟨-, -, hl⟩ := set_round_trip_rows w.faults db repoID
      repo.HeadCommitID size fileCount hcommit herr
    rw [hdb]
    have hinfo2 : w.repomgrGetOldRepoInfo
        (setRepoSizeAndFileCount w.faults db repoID repo.HeadCommitID size fileCount).db repoID
        = .ok (some ⟨repo.HeadCommitID, size, fileCount⟩) := by rw [hlookup]; exact hl
    rw [computeRepoSize_current w _ repoID repo _ hrepo hinfo2 rfl]
    exact ⟨rfl, rfl, rfl⟩

/-- The list of calls is faithful: every recorded call carries the arguments
the source passes and the result the collaborator gives in this world. -/
theorem computeRepoSize_calls_agree (w : World) (db : DB) (repoID : String) :
    ∀ c ∈ (computeRepoSize w db repoID).calls, c.agrees w db repoID := by
  have persist : ∀ (calls : List Call) (repo : Repo) (size fileCount : Int),
      w.repomgrGet repoID = some repo → (∀ c ∈ calls, c.agrees w db repoID) →
      ∀ c ∈ (persistTotals w db calls repoID repo size fileCount).calls,
        c.agrees w db repoID := by
    intro calls repo size fileCount hrepo hcalls c hc
    rw [(persistTotals_eq w db calls repoID repo size fileCount).1] at hc
    rcases List.mem_append.mp hc with hc | hc
    · exact hcalls c hc
    · rw [List.mem_singleton.mp hc]
      exact ⟨repo, hrepo, rfl, rfl, rfl⟩
  have walk : ∀ (calls : List Call) (repo : Repo),
      w.repomgrGet repoID = some repo → (∀ c ∈ calls, c.agrees w db repoID) →
      ∀ c ∈ (fullWalk w db calls repoID repo).calls, c.agrees w db repoID := by
    intro calls repo hrepo hcalls
    cases hfc : w.fsmgrGetFileCountInfoByPath repo.StoreID repo.RootID "/" with
    | error e =>
      rw [fullWalk_error w db calls repoID repo e hfc]
      intro c hc
      rcases List.mem_append.mp hc with hc | hc
      · exact hcalls c hc
      · rw [List.mem_singleton.mp hc]
        exact ⟨repo, hrepo, rfl, rfl, rfl, by rw [hfc]; rfl⟩
    | ok fc =>
      rw [fullWalk_ok w db calls repoID repo fc hfc]
      apply persist _ _ _ _ hrepo
      intro c hc
      rcases List.mem_append.mp hc with hc | hc
      · exact hcalls c hc
      · rw [List.mem_singleton.mp hc]
        exact ⟨repo, hrepo, rfl, rfl, rfl, by rw [hfc]; rfl⟩
  cases hrepo : w.repomgrGet repoID with
  | none =>
    rw [computeRepoSize_no_repo w db repoID hrepo]
    intro c hc
    rw [List.mem_singleton.mp hc]
    exact ⟨rfl, by rw [hrepo]; rfl⟩
  | some repo =>
    have c1 : (Call.repomgrGet repoID true).agrees w db repoID := ⟨rfl, by rw [hrepo]; rfl⟩
    cases hinfo : w.repomgrGetOldRepoInfo db repoID with
    | error e =>
      rw [computeRepoSize_lookup_error w db repoID repo e hrepo hinfo]
      intro c hc
      simp only [List.mem_cons, List.mem_singleton, List.not_mem_nil, or_false] at hc
      rcases hc with rfl | rfl
      · exact c1
      · exact ⟨rfl, by rw [hinfo]; rfl⟩
    | ok info =>
      have c2 : (Call.getOldRepoInfo repoID true).agrees w db repoID :=
        ⟨rfl, by rw [hinfo]; rfl⟩
      by_cases hcur : ∃ i, info = some i ∧ i.HeadID = repo.HeadCommitID
      · obtain ⟨i, rfl, hi⟩ := hcur
        rw [computeRepoSize_current w db repoID repo i hrepo hinfo hi]
        intro c hc
        simp only [List.mem_cons, List.mem_singleton, List.not_mem_nil, or_false] at hc
        rcases hc with rfl | rfl
        · exact c1
        · exact c2
      · have hcur2 : ∀ i, info = some i → i.HeadID ≠ repo.HeadCommitID :=
          fun i hi hh => hcur ⟨i, hi, hh⟩
        cases hhead : w.commitmgrLoad repo.ID repo.HeadCommitID with
        | error e =>
          rw [computeRepoSize_head_error w db repoID repo info e hrepo hinfo hcur2 hhead]
          intro c hc
          simp only [List.mem_cons, List.mem_singleton, List.not_mem_nil, or_false] at hc
          rcases hc with rfl | rfl | rfl
          · exact c1
          · exact c2
          · exact ⟨repo, hrepo, rfl, rfl, by rw [hhead]; rfl⟩
        | ok head =>
          have c3 : (Call.loadHead repo.ID repo.HeadCommitID true).agrees w db repoID :=
            ⟨repo, hrepo, rfl, rfl, by rw [hhead]; rfl⟩
          cases info with
          | none =>
            rw [computeRepoSize_no_record w db repoID repo head hrepo hinfo hhead]
            apply walk _ _ hrepo
            intro c hc
            simp only [List.mem_cons, List.mem_singleton, List.not_mem_nil, or_false] at hc
            rcases hc with rfl | rfl | rfl
            · exact c1
            · exact c2
            · exact c3
          | some i =>
            have hne : i.HeadID ≠ repo.HeadCommitID := hcur2 i rfl
            cases hold : w.commitmgrLoad repo.ID i.HeadID with
            | error e =>
              rw [computeRepoSize_old_head_error w db repoID repo i head e hrepo hinfo hne hhead
                hold]
              apply walk _ _ hrepo
              intro c hc
              simp only [List.mem_cons, List.mem_singleton, List.not_mem_nil, or_false] at hc
              rcases hc with rfl | rfl | rfl | rfl
              · exact c1
              · exact c2
              · exact c3
              · exact ⟨repo, i, hrepo, hinfo, rfl, rfl, by rw [hold]; rfl⟩
            | ok oldHead =>
              rw [computeRepoSize_old_head_ok w db repoID repo i head oldHead hrepo hinfo hne
                hhead hold]
              have c4 : (Call.loadOldHead repo.ID i.HeadID true).agrees w db repoID :=
                ⟨repo, i, hrepo, hinfo, rfl, rfl, by rw [hold]; rfl⟩
              have hpre : ∀ c ∈ [Call.repomgrGet repoID true, .getOldRepoInfo repoID true,
                  .loadHead repo.ID repo.HeadCommitID true, .loadOldHead repo.ID i.HeadID true],
                  c.agrees w db repoID := by
                intro c hc
                simp only [List.mem_cons, List.mem_singleton, List.not_mem_nil, or_false] at hc
                rcases hc with rfl | rfl | rfl | rfl
                · exact c1
                · exact c2
                · exact c3
                · exact c4
              cases hdiff : w.diffCommits oldHead head with
              | error e =>
                rw [incremental_error w db _ repoID repo i oldHead head e hdiff]
                intro c hc
                rcases List.mem_append.mp hc with hc | hc
                · exact hpre c hc
                · rw [List.mem_singleton.mp hc]
                  exact ⟨repo, i, hrepo, hinfo, hold, hhead, by rw [hdiff]; rfl⟩
              | ok results =>
                rw [incremental_ok w db _ repoID repo i oldHead head results hdiff]
                apply persist _ _ _ _ hrepo
                intro c hc
                rcases List.mem_append.mp hc with hc | hc
                · exact hpre c hc
                · rw [List.mem_singleton.mp hc]
                  exact ⟨repo, i, hrepo, hinfo, hold, hhead, by rw [hdiff]; rfl⟩

/-! ## Theorems: the incremental path against the full walk -/

/-- A path that is not a key of the tree has no size in it. -/
theorem lookup_eq_none_of_not_mem (t : Tree) (k : String) (h : k ∉ t.map Prod.fst) :
    t.lookup k = Option.none := by
  induction t with
  | nil => rfl
  | cons e t ih =>
    obtain ⟨a, b⟩ := e
    simp only [List.map_cons, List.mem_cons, not_or] at h
    rw [List.lookup_cons]
    have hka : (k == a) = false := by simpa using h.1
    rw [hka]
    exact ih h.2

/-- Over a well-formed tree, the sum of `c` over the entries of path `k` is `c`
when the tree has the path and `0` otherwise. -/
theorem sum_key_indicator (t : Tree) (k : String) (c : Int) (h : Tree.wellFormed t) :
    (t.map (fun e => if e.1 = k then c else 0)).sum
      = if (t.lookup k).isSome then c else 0 := by
  induction t with
  | nil => simp
  | cons e t ih =>
    obtain ⟨a, b⟩ := e
    unfold Tree.wellFormed at h
    simp only [List.map_cons, List.nodup_cons] at h
    have ih2 := ih h.2
    rw [List.map_cons, List.sum_cons, ih2, List.lookup_cons]
    by_cases hk : a = k
    · subst hk
      have hn := lookup_eq_none_of_not_mem t a h.1
      simp [hn]
    · have hka : (k == a) = false := by simpa using (fun h2 => hk h2.symm)
      rw [hka]
      simp [hk]

/-- Over two well-formed trees, summing a function of the old size over the
paths of `new` that `old` has is summing it over the entries of `old` whose
path `new` has. -/
theorem sum_lookup_swap (g : Int → Int) (old new : Tree) (ho : Tree.wellFormed old)
    (hn : Tree.wellFormed new) :
    (new.map (fun e => ((old.lookup e.1).map g).getD 0)).sum
      = (old.map (fun e => if (new.lookup e.1).isSome then g e.2 else 0)).sum := by
  induction old with
  | nil => simp
  | cons e old ih =>
    obtain ⟨k, v⟩ := e
    unfold Tree.wellFormed at ho
    simp only [List.map_cons, List.nodup_cons] at ho
    have ih2 := ih ho.2
    have hnone := lookup_eq_none_of_not_mem old k ho.1
    rw [List.map_cons, List.sum_cons, ← ih2, ← sum_key_indicator new k (g v) hn,
      ← List.sum_map_add]
    congr 1
    apply List.map_congr_left
    intro e _
    rw [List.lookup_cons]
    by_cases hk : e.1 = k
    · simp [hk, hnone]
    · have hek : (e.1 == k) = false := by simpa using hk
      rw [hek]
      simp [hk]

/-- A sum over a list splits into the part a filter keeps and the rest. -/
theorem sum_filter_split (t : Tree) (p : String × Int → Bool) (f : String × Int → Int) :
    (t.map f).sum
      = ((t.filter p).map f).sum + (t.map (fun e => if p e then 0 else f e)).sum := by
  induction t with
  | nil => simp
  | cons e t ih =>
    by_cases hp : p e
    · simp only [List.map_cons, List.sum_cons, List.filter_cons, hp, if_true, ih]
      ring
    · simp only [List.map_cons, List.sum_cons, List.filter_cons, hp, if_false, ih,
        Bool.false_eq_true]
      ring

theorem sumSizes_append (st : DiffStatus) (xs ys : List diffEntry) :
    sumSizes st (xs ++ ys) = sumSizes st xs + sumSizes st ys := by
  unfold sumSizes; simp [List.filter_append]

theorem countEntries_append (st : DiffStatus) (xs ys : List diffEntry) :
    countEntries st (xs ++ ys) = countEntries st xs + countEntries st ys := by
  unfold countEntries; simp [List.filter_append]

theorem sumModified_append (xs ys : List diffEntry) :
    sumModified (xs ++ ys) = sumModified xs + sumModified ys := by
  unfold sumModified; simp [List.filter_append]

theorem sumOriginModified_append (xs ys : List diffEntry) :
    sumOriginModified (xs ++ ys) = sumOriginModified xs + sumOriginModified ys := by
  unfold sumOriginModified; simp [List.filter_append]

theorem sumOriginModified_cons (e : diffEntry) (es : List diffEntry) :
    sumOriginModified (e :: es)
      = (if e.status = .DIFF_STATUS_MODIFIED then e.originSize else 0)
        + sumOriginModified es := by
  unfold sumOriginModified
  by_cases h : e.status = .DIFF_STATUS_MODIFIED <;> simp [List.filter_cons, h]

/-- The sums and counts over a list of entries that all carry status `st0`
and come from tree entries. -/
theorem sums_of_uniform (st0 : DiffStatus) (hst : st0 ≠ .DIFF_STATUS_MODIFIED) (l : Tree)
    (st : DiffStatus) :
    sumSizes st (l.map (fun e => (⟨st0, e.1, e.2, 0⟩ : diffEntry)))
      = (if st0 = st then (l.map Prod.snd).sum else 0) ∧
    countEntries st (l.map (fun e => (⟨st0, e.1, e.2, 0⟩ : diffEntry)))
      = (if st0 = st then (l.length : Int) else 0) ∧
    sumModified (l.map (fun e => (⟨st0, e.1, e.2, 0⟩ : diffEntry))) = 0 ∧
    sumOriginModified (l.map (fun e => (⟨st0, e.1, e.2, 0⟩ : diffEntry))) = 0 := by
  induction l with
  | nil => simp [sumSizes, countEntries, sumModified, sumOriginModified]
  | cons e l ih =>
    obtain ⟨i1, i2, i3, i4⟩ := ih
    simp only [List.map_cons, sumSizes_cons, countEntries_cons, sumModified_cons,
      sumOriginModified_cons, i1, i2, i3, i4, hst, if_false, List.sum_cons, List.length_cons]
    by_cases h : st0 = st
    · simp [h]; ring
    · simp [h]

theorem modifiedEntries_cons_none (old new : Tree) (e : String × Int)
    (h : old.lookup e.1 = Option.none) :
    modifiedEntries old (e :: new) = modifiedEntries old new := by
  unfold modifiedEntries
  rw [List.filterMap_cons]
  simp only [h]

theorem modifiedEntries_cons_same (old new : Tree) (e : String × Int)
    (h : old.lookup e.1 = some e.2) :
    modifiedEntries old (e :: new) = modifiedEntries old new := by
  unfold modifiedEntries
  rw [List.filterMap_cons]
  simp only [h, ne_eq, not_true_eq_false, if_false]

theorem modifiedEntries_cons_changed (old new : Tree) (e : String × Int) (v : Int)
    (h : old.lookup e.1 = some v) (hv : v ≠ e.2) :
    modifiedEntries old (e :: new)
      = ⟨.DIFF_STATUS_MODIFIED, e.1, e.2, v⟩ :: modifiedEntries old new := by
  unfold modifiedEntries
  rw [List.filterMap_cons]
  simp only [h, ne_eq, hv, not_false_eq_true, if_true]

/-- The sums and counts over the MODIFIED entries of a diff, as sums over the
new tree. -/
theorem sums_of_modifiedEntries (old new : Tree) :
    sumSizes .DIFF_STATUS_ADDED (modifiedEntries old new) = 0 ∧
    sumSizes .DIFF_STATUS_DELETED (modifiedEntries old new) = 0 ∧
    countEntries .DIFF_STATUS_ADDED (modifiedEntries old new) = 0 ∧
    countEntries .DIFF_STATUS_DELETED (modifiedEntries old new) = 0 ∧
    sumModified (modifiedEntries old new)
      = 2 * sumOriginModified (modifiedEntries old new)
        + (new.map (fun e => if (old.lookup e.1).isNone then 0 else e.2)).sum
        - (new.map (fun e => ((old.lookup e.1).map id).getD 0)).sum := by
  induction new with
  | nil => simp [modifiedEntries, sumSizes, countEntries, sumModified, sumOriginModified]
  | cons e new ih =>
    obtain ⟨i1, i2, i3, i4, i5⟩ := ih
    cases hl : old.lookup e.1 with
    | none =>
      rw [modifiedEntries_cons_none old new e hl]
      refine ⟨i1, i2, i3, i4, ?_⟩
      simp only [List.map_cons, List.sum_cons, hl, Option.isNone_none, if_true,
        Option.map_none', Option.getD_none]
      rw [i5]; ring
    | some v =>
      by_cases hv : v = e.2
      · rw [modifiedEntries_cons_same old new e (by rw [hl, hv])]
        refine ⟨i1, i2, i3, i4, ?_⟩
        simp only [List.map_cons, List.sum_cons, hl, Option.isNone_some, Bool.false_eq_true,
          if_false, Option.map_some', Option.getD_some, id]
        rw [i5, hv]; ring
      · rw [modifiedEntries_cons_changed old new e v hl hv]
        simp only [sumSizes_cons, countEntries_cons, sumModified_cons, sumOriginModified_cons,
          i1, i2, i3, i4]
        refine ⟨by simp, by simp, by simp, by simp, ?_⟩
        simp only [List.map_cons, List.sum_cons, hl, Option.isNone_some, Bool.false_eq_true,
          if_false, Option.map_some', Option.getD_some, id, if_true]
        rw [i5]; ring

/-- The length of a list splits into the part a filter keeps and the rest. -/
theorem length_filter_split (t : Tree) (p : String × Int → Bool) :
    (t.length : Int)
      = ((t.filter p).length : Int) + (t.map (fun e => if p e then (0 : Int) else 1)).sum := by
  induction t with
  | nil => simp
  | cons e t ih =>
    by_cases hp : p e
    · simp only [List.length_cons, List.map_cons, List.sum_cons, List.filter_cons, hp, if_true]
      push_cast
      omega
    · simp only [List.length_cons, List.map_cons, List.sum_cons, List.filter_cons, hp, if_false,
        Bool.false_eq_true]
      push_cast
      omega

/-- The totals the specification's formula gives for the diff of two
well-formed trees, from the full walk of the old tree: the size is the full
walk of the new tree plus twice the old sizes of the files whose size changed,
the file count is the full walk of the new tree. -/
theorem diffTrees_spec_totals (old new : Tree) (ho : Tree.wellFormed old)
    (hn : Tree.wellFormed new) :
    specSize (countTree old).Size (diffTrees old new)
      = (countTree new).Size + 2 * sumOriginModified (diffTrees old new) ∧
    specFileCount (countTree old).FileCount (diffTrees old new) = (countTree new).FileCount := by
  obtain ⟨m1, m2, m3, m4, m5⟩ := sums_of_modifiedEntries old new
  have a := fun st => sums_of_uniform .DIFF_STATUS_ADDED (by decide)
    (new.filter (fun e => (old.lookup e.1).isNone)) st
  have d := fun st => sums_of_uniform .DIFF_STATUS_DELETED (by decide)
    (old.filter (fun e => (new.lookup e.1).isNone)) st
  have sn := sum_filter_split new (fun e => (old.lookup e.1).isNone) Prod.snd
  have so := sum_filter_split old (fun e => (new.lookup e.1).isNone) Prod.snd
  have ln := length_filter_split new (fun e => (old.lookup e.1).isNone)
  have lo := length_filter_split old (fun e => (new.lookup e.1).isNone)
  have sw := sum_lookup_swap id old new ho hn
  have sw1 := sum_lookup_swap (fun _ => 1) old new ho hn
  have e1 : (old.map (fun e => if (new.lookup e.1).isSome then id e.2 else 0))
      = old.map (fun e => if (new.lookup e.1).isNone then 0 else e.2) := by
    apply List.map_congr_left
    intro e _
    cases new.lookup e.1 <;> simp
  have e2 : (old.map (fun e => if (new.lookup e.1).isSome then (fun _ => (1 : Int)) e.2 else 0))
      = old.map (fun e => if (new.lookup e.1).isNone then (0 : Int) else 1) := by
    apply List.map_congr_left
    intro e _
    cases new.lookup e.1 <;> simp
  have e3 : (new.map (fun e => ((old.lookup e.1).map (fun _ => (1 : Int))).getD 0))
      = new.map (fun e => if (old.lookup e.1).isNone then (0 : Int) else 1) := by
    apply List.map_congr_left
    intro e _
    cases old.lookup e.1 <;> simp
  rw [e1] at sw
  rw [e2, e3] at sw1
  unfold specSize specFileCount diffTrees countTree
  simp only [sumSizes_append, countEntries_append, sumModified_append, sumOriginModified_append]
  unfold addedEntries deletedEntries
  have aM := (a .DIFF_STATUS_ADDED).2.2.1
  have aO := (a .DIFF_STATUS_ADDED).2.2.2
  have dM := (d .DIFF_STATUS_ADDED).2.2.1
  have dO := (d .DIFF_STATUS_ADDED).2.2.2
  simp only [(a _).1, (a _).2.1, (d _).1, (d _).2.1, aM, aO, dM, dO, m1, m2, m3, m4, m5,
    if_true]
  simp only [reduceCtorEq, if_false]
  constructor
  · linarith
  · linarith

/-- The incremental path against the full walk, in general.  For well-formed
trees `old` and `new`, when the record of the repository holds the full walk
of `old` at another head, `computeRepoSize` takes the incremental path and
passes to persistence the size of the full walk of `new` plus twice the old
sizes of the files whose size changed, and the file count of the full walk of
`new` (both reduced to `int64`). -/
theorem computeRepoSize_incremental_against_full_walk (repoID headID oldHeadID : String)
    (old new : Tree) (ho : Tree.wellFormed old) (hn : Tree.wellFormed new)
    (hne : oldHeadID ≠ headID) :
    (computeRepoSize (treeWorld headID old new) (recordOf repoID oldHeadID old) repoID).calls
      = [.repomgrGet repoID true, .getOldRepoInfo repoID true, .loadHead repoID headID true,
         .loadOldHead repoID oldHeadID true,
         .diffCommits ⟨oldHeadID, "root-" ++ oldHeadID⟩ ⟨headID, "root-" ++ headID⟩ true,
         .setRepoSizeAndFileCount repoID headID
           (wrap64 ((countTree new).Size + 2 * sumOriginModified (diffTrees old new)))
           (wrap64 (countTree new).FileCount)
           (setRepoSizeAndFileCount Faults.reliable (recordOf repoID oldHeadID old) repoID headID
             (wrap64 ((countTree new).Size + 2 * sumOriginModified (diffTrees old new)))
             (wrap64 (countTree new).FileCount)).err.isNone] := by
  have hinfo : (treeWorld headID old new).repomgrGetOldRepoInfo (recordOf repoID oldHeadID old)
      repoID = .ok (some ⟨oldHeadID, (countTree old).Size, (countTree old).FileCount⟩) := by
    simp [treeWorld, getPreviousSizeInfo, recordOf]
  rw [computeRepoSize_old_head_ok (treeWorld headID old new) (recordOf repoID oldHeadID old)
      repoID ⟨repoID, headID, repoID, "root-" ++ headID⟩
      ⟨oldHeadID, (countTree old).Size, (countTree old).FileCount⟩
      ⟨headID, "root-" ++ headID⟩ ⟨oldHeadID, "root-" ++ oldHeadID⟩ rfl hinfo hne rfl rfl,
    incremental_ok _ _ _ _ _ _ _ _ (diffTrees old new) rfl,
    (persistTotals_eq _ _ _ _ _ _ _).1]
  obtain ⟨t1, t2⟩ := accountDiff_totals (countTree old).Size (countTree old).FileCount
    (diffTrees old new)
  obtain ⟨s1, s2⟩ := diffTrees_spec_totals old new ho hn
  simp only [t1, t2, s1, s2]
  rfl

/-- The diff against the empty tree has no MODIFIED entry. -/
theorem sumOriginModified_diffTrees_nil (new : Tree) :
    sumOriginModified (diffTrees [] new) = 0 := by
  have hm : modifiedEntries [] new = [] := by
    unfold modifiedEntries
    induction new with
    | nil => rfl
    | cons e new ih => rw [List.filterMap_cons]; simp [ih]
  have a := (sums_of_uniform .DIFF_STATUS_ADDED (by decide)
    (new.filter (fun e => (List.lookup e.1 ([] : Tree)).isNone)) .DIFF_STATUS_ADDED).2.2.2
  unfold diffTrees
  rw [hm, List.append_nil, sumOriginModified_append]
  unfold addedEntries deletedEntries
  rw [a]
  simp [sumOriginModified]

/-- The incremental path agrees with the full walk when no file changed size.
For well-formed trees whose diff carries no old size on a MODIFIED entry, in
particular when `old` is the empty tree and the record is `(0, 0)`, and a full
walk of `new` that fits `int64`, the incremental path passes exactly
`countTree new` to persistence. -/
theorem computeRepoSize_incremental_agrees_without_modified (repoID headID oldHeadID : String)
    (old new : Tree) (ho : Tree.wellFormed old) (hn : Tree.wellFormed new)
    (hne : oldHeadID ≠ headID) (hm : sumOriginModified (diffTrees old new) = 0)
    (hs : inInt64 (countTree new).Size) (hf : inInt64 (countTree new).FileCount) :
    ∃ ok, Call.setRepoSizeAndFileCount repoID headID (countTree new).Size
        (countTree new).FileCount ok
      ∈ (computeRepoSize (treeWorld headID old new) (recordOf repoID oldHeadID old)
          repoID).calls := by
  rw [computeRepoSize_incremental_against_full_walk repoID headID oldHeadID old new ho hn hne, hm,
    mul_zero, add_zero, wrap64_of_inInt64 _ hs, wrap64_of_inInt64 _ hf]
  refine ⟨(setRepoSizeAndFileCount Faults.reliable (recordOf repoID oldHeadID old) repoID headID
    (countTree new).Size (countTree new).FileCount).err.isNone, ?_⟩
  simp

end SizeSched
